import Mathlib

/-!
# Aiven Terraform provider: static IP, Clickhouse user and Kafka ACL resources

A shallow embedding of the resource callbacks of

* `aiven/resource_static_ip.go`
* `internal/service/clickhouse/resource_clickhouse_user.go`
* `internal/service/kafka/resource_kafka_acl.go`

Resource data (`*schema.ResourceData`) is an explicit value that the callbacks
return updated.  The remote Aiven API is a record of response functions; every
response may depend on the history of calls made so far, so that a client value
stands for an arbitrary sequence of remote responses.  Each callback returns the
extended call history next to its result.
-/

namespace Aiven

/-! ## Errors and diagnostics -/

/-- The errors of a context that has ended. -/
inductive ContextErr where
  /-- the error `context.Canceled` -/
  | canceled
  /-- the error `context.DeadlineExceeded` -/
  | deadlineExceeded
  deriving DecidableEq, Repr

/-- Error values.  The message text of a Go error is a function of the value
kept here; `errorf` keeps the error operand of `fmt.Errorf` (verbs `%w`, `%s`)
and `errorfDiags` the diagnostics operand (verb `%v`). -/
inductive Err where
  /-- an error value returned by the remote API client -/
  | api (status : Nat) (message : String)
  /-- `fmt.Errorf` whose operands are strings only -/
  | msg (text : String)
  /-- `fmt.Errorf(text ++ verb, cause)` -/
  | errorf (text : String) (cause : Err)
  /-- `fmt.Errorf(text ++ "%v", diagnostics)`, with the errors the diagnostics carry -/
  | errorfDiags (text : String) (causes : List Err)
  /-- `resource.TimeoutError` of the plugin SDK, with its fields `LastError`,
  `LastState`, `Timeout` and `ExpectedState` -/
  | timeout (lastError : Option Err) (lastState : String) (timeout : Nat)
      (expected : List String)
  /-- the error `ctx.Err()` of a context that has ended -/
  | context (err : ContextErr)
  /-- `resource.UnexpectedStateError` of the plugin SDK -/
  | unexpectedState (state : String) (expected : List String)
  /-- `resource.NotFoundError` of the plugin SDK -/
  | notFound (retries : Nat)

inductive Severity where
  | error
  | warning
  deriving DecidableEq, Repr

/-- One `diag.Diagnostic`: the summary of a diagnostic built from an error is the
text of that error, kept here as the error value itself. -/
structure Diagnostic where
  severity : Severity
  summary : Err

/-- The Go type `diag.Diagnostics`; `nil` is the empty list. -/
abbrev Diagnostics := List Diagnostic

/-- The function `diag.FromErr`: `nil` for a nil error, else one error diagnostic. -/
def Diagnostics.fromErr : Option Err → Diagnostics
  | none => []
  | some e => [⟨Severity.error, e⟩]

/-- The method `Diagnostics.HasError`. -/
def Diagnostics.hasError (ds : Diagnostics) : Bool :=
  ds.any (fun dg => decide (dg.severity = Severity.error))

/-! ## Strings -/

/-- The function `strings.Split(s, sep)` for a one-character separator, on the
characters of `s`: the pieces between consecutive separators, in order. -/
def stringsSplit (sep : Char) : List Char → List (List Char)
  | [] => [[]]
  | c :: cs =>
    if c = sep then [] :: stringsSplit sep cs
    else
      match stringsSplit sep cs with
      | [] => [[c]]
      | piece :: rest => (c :: piece) :: rest

/-! ## Schemas and resource data -/

inductive ValueType where
  | typeString
  | typeBool
  deriving DecidableEq, Repr

inductive Value where
  | str (s : String)
  | bool (b : Bool)
  deriving DecidableEq, Repr

def Value.type : Value → ValueType
  | .str _ => ValueType.typeString
  | .bool _ => ValueType.typeBool

/-- The type `schema.SchemaValidateFunc`: value and attribute name to warnings and errors. -/
abbrev SchemaValidateFunc := Value → String → List String × List Err

/-- The fields of `schema.Schema` that the resources set. -/
structure Schema where
  type : ValueType
  required : Bool := false
  computed : Bool := false
  forceNew : Bool := false
  sensitive : Bool := false
  validateFunc : Option SchemaValidateFunc := none

/-- A schema map `map[string]*schema.Schema`, as an association list. -/
abbrev SchemaMap := List (String × Schema)

/-- The state of a `*schema.ResourceData`: its ID and its attribute values. -/
structure ResourceData where
  id : String
  attrs : String → Option Value

/-- The method `d.Id()`. -/
def ResourceData.Id (d : ResourceData) : String := d.id

/-- The method `d.SetId(v)`. -/
def ResourceData.SetId (d : ResourceData) (v : String) : ResourceData :=
  { d with id := v }

/-- The method `d.Set(key, value)` of a resource whose schema is `sm`: an error
when the schema has no such key or the value is not of the key's type, else the
attribute is written. -/
def ResourceData.Set (sm : SchemaMap) (d : ResourceData) (key : String) (v : Value) :
    Except Err ResourceData :=
  match sm.lookup key with
  | none => .error (Err.msg ("Invalid address to set: " ++ key))
  | some s =>
    if s.type = v.type then
      .ok { d with attrs := fun k => if k = key then some v else d.attrs k }
    else .error (Err.msg (key ++ ": value of the wrong type"))

/-- The expression `d.Get(key).(string)`: the zero value when the key is unset. -/
def ResourceData.GetString (d : ResourceData) (key : String) : String :=
  match d.attrs key with
  | some (.str s) => s
  | _ => ""

/-- Sets the attributes of `kvs` in order with `d.Set`, stopping at the first
failure: the failing key, its error and the data as written so far. -/
def ResourceData.SetEach (sm : SchemaMap) :
    ResourceData → List (String × Value) → Except (String × Err × ResourceData) ResourceData
  | d, [] => .ok d
  | d, (key, v) :: kvs =>
    match d.Set sm key v with
    | .error err => .error (key, err, d)
    | .ok d1 => ResourceData.SetEach sm d1 kvs

/-- Modelled from the spec: the shared schema of the `project` attribute
(`commonSchemaProjectReference`, `schemautil.CommonSchemaProjectReference`),
whose declaration is not in the files embedded here.  The callbacks read the
attribute with `d.Get("project").(string)`, so its type is string; the spec has
every field of a Kafka ACL force recreation. -/
def CommonSchemaProjectReference : Schema :=
  { type := ValueType.typeString, required := true, forceNew := true }

/-- Modelled from the spec: the shared schema of the `service_name` attribute
(`schemautil.CommonSchemaServiceNameReference`), whose declaration is not in the
files embedded here.  The callbacks read the attribute with
`d.Get("service_name").(string)`, so its type is string; the spec has every
field of a Kafka ACL force recreation. -/
def CommonSchemaServiceNameReference : Schema :=
  { type := ValueType.typeString, required := true, forceNew := true }

/-! ## The remote API -/

/-- The type `aiven.StaticIP`. -/
structure StaticIP where
  cloudName : String
  ipAddress : String
  serviceName : String
  state : String
  staticIPAddressID : String
  deriving DecidableEq, Repr

/-- The fields of `aiven.ClickhouseUser` that the callbacks read. -/
structure ClickhouseUser where
  name : String
  password : String
  required : Bool
  uuid : String
  deriving DecidableEq, Repr

/-- The fields of `aiven.KafkaACL` that the callbacks read. -/
structure KafkaACL where
  id : String
  permission : String
  topic : String
  username : String
  deriving DecidableEq, Repr

/-- One call made through the API client, with its arguments. -/
inductive Call where
  | staticIPsList (project : String)
  | staticIPsCreate (project cloudName : String)
  | staticIPsDelete (project staticIPAddressID : String)
  | clickhouseUserCreate (project serviceName username : String)
  | clickhouseUserGet (project serviceName uuid : String)
  | clickhouseUserDelete (project serviceName uuid : String)
  | kafkaACLsCreate (project serviceName permission topic username : String)
  | kafkaACLsDelete (project serviceName aclID : String)
  | aclCacheRead (project serviceName aclID : String)
  deriving DecidableEq, Repr

/-- The API client `*aiven.Client` together with the remote service behind it.
Every response is a function of the calls made before it and of the arguments,
so a client stands for an arbitrary sequence of remote responses.
`aclCacheRead` is `cache.ACLCache.Read`, the read-through lookup of one ACL, and
`IsNotFound` the classification `aiven.IsNotFound` of the client library. -/
structure Client where
  staticIPsList : List Call → String → Except Err (List StaticIP)
  staticIPsCreate : List Call → String → String → Except Err StaticIP
  staticIPsDelete : List Call → String → String → Option Err
  clickhouseUserCreate : List Call → String → String → String → Except Err ClickhouseUser
  clickhouseUserGet : List Call → String → String → String → Except Err ClickhouseUser
  clickhouseUserDelete : List Call → String → String → String → Option Err
  kafkaACLsCreate : List Call → String → String → String → String → String → Except Err KafkaACL
  kafkaACLsDelete : List Call → String → String → String → Option Err
  aclCacheRead : List Call → String → String → String → Except Err KafkaACL
  IsNotFound : Err → Bool

/-- The resource-ID helpers of package `schemautil`, whose source is not in the
files embedded here: they are parameters of every callback. -/
structure Schemautil where
  SplitResourceID2 : String → String × String
  SplitResourceID3 : String → String × String × String
  BuildResourceID : List String → String

/-- Modelled from the spec: `ResourceReadHandleNotFound` of package `schemautil`,
whose source is not in the files embedded here.  A not-found error on read is a
state-clearing signal: the resource ID is cleared and no error is reported; any
other error is returned as it is. -/
def ResourceReadHandleNotFound (client : Client) (err : Err) (d : ResourceData) :
    Option Err × ResourceData :=
  if client.IsNotFound err then (none, d.SetId "") else (some err, d)

/-- What a CRUD callback leaves behind: its diagnostics, the resource data and
the history of API calls. -/
structure Result where
  diags : Diagnostics
  d : ResourceData
  calls : List Call

/-! ## Static IP (`aiven/resource_static_ip.go`) -/

def aivenStaticIPSchema : SchemaMap :=
  [ ("project", CommonSchemaProjectReference),
    ("cloud_name", { type := ValueType.typeString, required := true, forceNew := true }),
    ("ip_address", { type := ValueType.typeString, computed := true }),
    ("service_name", { type := ValueType.typeString, computed := true }),
    ("state", { type := ValueType.typeString, computed := true }),
    ("static_ip_address_id", { type := ValueType.typeString, computed := true }) ]

/-- The loop `for _, sip := range r.StaticIPs` with its test
`sip.StaticIPAddressID == staticIPAddressId`: the first matching entry. -/
def findStaticIP (staticIPAddressId : String) (ips : List StaticIP) : Option StaticIP :=
  ips.find? (fun sip => sip.staticIPAddressID == staticIPAddressId)

def resourceStaticIPRead (su : Schemautil) (client : Client) (calls : List Call)
    (d : ResourceData) : Result :=
  let project := (su.SplitResourceID2 d.Id).1
  let staticIPAddressId := (su.SplitResourceID2 d.Id).2
  let calls1 := calls ++ [Call.staticIPsList project]
  match client.staticIPsList calls project with
  | .error err =>
    ⟨Diagnostics.fromErr (ResourceReadHandleNotFound client err d).1,
      (ResourceReadHandleNotFound client err d).2, calls1⟩
  | .ok r =>
    match findStaticIP staticIPAddressId r with
    | some sip =>
      match d.SetEach aivenStaticIPSchema
          [ ("project", .str project),
            ("cloud_name", .str sip.cloudName),
            ("ip_address", .str sip.ipAddress),
            ("service_name", .str sip.serviceName),
            ("state", .str sip.state),
            ("static_ip_address_id", .str sip.staticIPAddressID) ] with
      | .error (key, err, d1) =>
        ⟨[⟨Severity.error,
            Err.errorf ("error setting static ips `" ++ key ++ "` for resource " ++ d.Id ++ ": ")
              err⟩], d1, calls1⟩
      | .ok d1 => ⟨[], d1, calls1⟩
    | none => ⟨[], d.SetId "", calls1⟩

def resourceStaticIPDelete (su : Schemautil) (client : Client) (calls : List Call)
    (d : ResourceData) : Result :=
  let project := (su.SplitResourceID2 d.Id).1
  let staticIPAddressId := (su.SplitResourceID2 d.Id).2
  let calls1 := calls ++ [Call.staticIPsDelete project staticIPAddressId]
  match client.staticIPsDelete calls project staticIPAddressId with
  | some err => if !client.IsNotFound err then ⟨Diagnostics.fromErr (some err), d, calls1⟩
                else ⟨[], d, calls1⟩
  | none => ⟨[], d, calls1⟩

/-! ### The state poll

`resource.StateChangeConf.WaitForStateContext` belongs to the Terraform plugin
SDK.  It runs `Refresh` in a loop, the first time at once and then after a pause
each time, until a result ends the wait, the deadline `Timeout` elapses or the
context `ctx` ends.  Wall-clock time is not part of the embedding: a `Clock`
tells where the deadline and the end of the context fall among the refreshes,
and every statement about a wait holds for every clock.
-/

/-- Where the deadline of a wait or the end of its context, whichever comes
first, falls among the refreshes.  `before` counts the refreshes whose results
were received earlier, with the context live and the deadline ahead.

* `ctxDoneAtStart`: the context has ended before the first refresh starts;
* `ctxDoneInFlight before`: it ends while refresh number `before + 1` is in flight;
* `ctxDoneWaiting before`: it ends during the pause after refresh number `before + 1`;
* `deadlineInFlight before received`: the deadline elapses while refresh number
  `before + 1` is in flight, and `received` tells whether the result of that
  refresh arrives within the grace period that follows, the context still live;
* `deadlineWaiting before`: the deadline elapses during the pause after refresh
  number `before + 1`.

The first refresh starts at once, so the deadline never precedes it. -/
inductive Clock where
  | ctxDoneAtStart (err : ContextErr)
  | ctxDoneInFlight (before : Nat) (err : ContextErr)
  | ctxDoneWaiting (before : Nat) (err : ContextErr)
  | deadlineInFlight (before : Nat) (received : Bool)
  | deadlineWaiting (before : Nat)

/-- The number of refreshes whose results are received before the deadline,
with the context live. -/
def Clock.inTime : Clock → Nat
  | .ctxDoneAtStart _ => 0
  | .ctxDoneInFlight before _ => before
  | .ctxDoneWaiting before _ => before + 1
  | .deadlineInFlight before _ => before
  | .deadlineWaiting before => before + 1

/-- What a `Refresh` function returns: `result` is `none` for a nil result. -/
structure RefreshResult where
  result : Option Unit
  state : String
  err : Option Err

/-- The fields of `resource.StateChangeConf` set by the resource; `timeout` is
the duration `Timeout`. -/
structure StateChangeConf where
  target : List String
  pending : List String
  timeout : Nat
  refresh : List Call → RefreshResult × List Call

/-- What the refresh loop makes of one refresh result. -/
inductive Verdict where
  /-- the target is reached: the result is marked `Done` -/
  | done
  /-- the loop ends with this error -/
  | failed (err : Err)
  /-- the loop goes on, with this count of consecutive nil results -/
  | retry (notfoundTick : Nat)

/-- The body of the refresh loop after a refresh, with the SDK defaults
`NotFoundChecks = 20` and `ContinuousTargetOccurence = 1`: a refresh error ends
the loop with that error; a nil result counts as not found; a state among the
targets is the end in success; a state among the pending ones goes on; any other
state is an `UnexpectedStateError` when pending states are configured. -/
def StateChangeConf.verdict (conf : StateChangeConf) (notfoundTick : Nat)
    (r : RefreshResult) : Verdict :=
  match r.err with
  | some err => .failed err
  | none =>
    match r.result with
    | none =>
      if conf.target = [] then .done
      else if notfoundTick + 1 > 20 then .failed (Err.notFound (notfoundTick + 1))
      else .retry (notfoundTick + 1)
    | some _ =>
      if r.state ∈ conf.target then .done
      else if r.state ∈ conf.pending then .retry 0
      else if conf.pending ≠ [] then .failed (Err.unexpectedState r.state conf.target)
      else .retry 0

/-- How a wait ends once the refreshes received in time have all made the loop
go on.  A context that has ended gives `ctx.Err()`; a refresh in flight at that
moment has made its call.  After the deadline a refresh in flight is awaited for
the grace period: a `Done` result still is success, and anything else, like no
result at all, gives a `TimeoutError` that records the last result received. -/
def waitEnd (conf : StateChangeConf) (clock : Clock) (notfoundTick : Nat)
    (lastState : String) (calls : List Call) : Option Err × List Call :=
  match clock with
  | .ctxDoneAtStart err => (some (Err.context err), calls)
  | .ctxDoneWaiting _ err => (some (Err.context err), calls)
  | .ctxDoneInFlight _ err => (some (Err.context err), (conf.refresh calls).2)
  | .deadlineWaiting _ => (some (Err.timeout none lastState conf.timeout conf.target), calls)
  | .deadlineInFlight _ false =>
    (some (Err.timeout none lastState conf.timeout conf.target), (conf.refresh calls).2)
  | .deadlineInFlight _ true =>
    let r := (conf.refresh calls).1
    let calls1 := (conf.refresh calls).2
    match conf.verdict notfoundTick r with
    | .done => (none, calls1)
    | .failed err => (some (Err.timeout (some err) r.state conf.timeout conf.target), calls1)
    | .retry _ => (some (Err.timeout none r.state conf.timeout conf.target), calls1)

/-- The refresh loop of `WaitForStateContext` as seen by its caller: `n`
refreshes are still to be received in time; a `Done` result ends the wait with
success, a failure with its error, and otherwise the loop goes on. -/
def waitLoop (conf : StateChangeConf) (clock : Clock) :
    Nat → Nat → String → List Call → Option Err × List Call
  | 0, notfoundTick, lastState, calls => waitEnd conf clock notfoundTick lastState calls
  | n + 1, notfoundTick, _, calls =>
    let r := (conf.refresh calls).1
    let calls1 := (conf.refresh calls).2
    match conf.verdict notfoundTick r with
    | .done => (none, calls1)
    | .failed err => (some err, calls1)
    | .retry notfoundTick1 => waitLoop conf clock n notfoundTick1 r.state calls1

/-- The method `conf.WaitForStateContext(ctx)`; the clock stands for `ctx` and
for the time at which `conf.Timeout` elapses. -/
def StateChangeConf.WaitForStateContext (conf : StateChangeConf) (clock : Clock)
    (calls : List Call) : Option Err × List Call :=
  waitLoop conf clock clock.inTime 0 "" calls

/-- The `Refresh` closure of `resourceStaticIPWait`. -/
def staticIPRefresh (client : Client) (project staticIPAddressId : String)
    (calls : List Call) : RefreshResult × List Call :=
  let calls1 := calls ++ [Call.staticIPsList project]
  match client.staticIPsList calls project with
  | .error err => (⟨none, "", some (Err.errorf "unable to fetch static ips: " err)⟩, calls1)
  | .ok r =>
    match findStaticIP staticIPAddressId r with
    | some sip => (⟨some (), sip.state, none⟩, calls1)
    | none => (⟨some (), "waiting", none⟩, calls1)

/-- The value `conf` of `resourceStaticIPWait`; `createTimeout` is the duration
`d.Timeout(schema.TimeoutCreate)`. -/
def staticIPWaitConf (client : Client) (project staticIPAddressId : String)
    (createTimeout : Nat) : StateChangeConf :=
  { target := ["created"]
    pending := ["creating", "waiting"]
    timeout := createTimeout
    refresh := staticIPRefresh client project staticIPAddressId }

/-- The function `resourceStaticIPWait(ctx, d, m)`; the clock stands for `ctx`
and for the time at which the create timeout elapses. -/
def resourceStaticIPWait (su : Schemautil) (client : Client) (createTimeout : Nat)
    (clock : Clock) (calls : List Call) (d : ResourceData) : Option Err × List Call :=
  let project := (su.SplitResourceID2 d.Id).1
  let staticIPAddressId := (su.SplitResourceID2 d.Id).2
  let conf := staticIPWaitConf client project staticIPAddressId createTimeout
  match conf.WaitForStateContext clock calls with
  | (some err, calls1) =>
    (some (Err.errorf "error waiting for static ip to be created: " err), calls1)
  | (none, calls1) => (none, calls1)

def resourceStaticIPCreate (su : Schemautil) (client : Client) (createTimeout : Nat)
    (clock : Clock) (calls : List Call) (d : ResourceData) : Result :=
  let project := d.GetString "project"
  let cloudName := d.GetString "cloud_name"
  let calls1 := calls ++ [Call.staticIPsCreate project cloudName]
  match client.staticIPsCreate calls project cloudName with
  | .error err =>
    ⟨Diagnostics.fromErr (some (Err.errorf "unable to create static ip: " err)), d, calls1⟩
  | .ok r =>
    let d1 := d.SetId (su.BuildResourceID [project, r.staticIPAddressID])
    match resourceStaticIPWait su client createTimeout clock calls1 d1 with
    | (some err, calls2) =>
      ⟨Diagnostics.fromErr
          (some (Err.errorf "unable to wait for static ip to become active: " err)),
        d1, calls2⟩
    | (none, calls2) => resourceStaticIPRead su client calls2 d1

/-- The callbacks a `schema.Resource` registers, by name. -/
structure Resource where
  createContext : Option String := none
  readContext : Option String := none
  updateContext : Option String := none
  deleteContext : Option String := none
  importerStateContext : Option String := none
  schema : SchemaMap

def resourceStaticIP : Resource :=
  { createContext := some "resourceStaticIPCreate"
    readContext := some "resourceStaticIPRead"
    deleteContext := some "resourceStaticIPDelete"
    schema := aivenStaticIPSchema }

/-! ## Clickhouse user (`internal/service/clickhouse/resource_clickhouse_user.go`) -/

def aivenClickhouseUserSchema : SchemaMap :=
  [ ("project", CommonSchemaProjectReference),
    ("service_name", CommonSchemaServiceNameReference),
    ("username", { type := ValueType.typeString, required := true, forceNew := true }),
    ("password", { type := ValueType.typeString, sensitive := true, computed := true }),
    ("uuid", { type := ValueType.typeString, computed := true }),
    ("required", { type := ValueType.typeBool, computed := true }) ]

def resourceClickhouseUserRead (su : Schemautil) (client : Client) (calls : List Call)
    (d : ResourceData) : Result :=
  let projectName := (su.SplitResourceID3 d.Id).1
  let serviceName := (su.SplitResourceID3 d.Id).2.1
  let uuid := (su.SplitResourceID3 d.Id).2.2
  let calls1 := calls ++ [Call.clickhouseUserGet projectName serviceName uuid]
  match client.clickhouseUserGet calls projectName serviceName uuid with
  | .error err =>
    ⟨Diagnostics.fromErr (ResourceReadHandleNotFound client err d).1,
      (ResourceReadHandleNotFound client err d).2, calls1⟩
  | .ok user =>
    match d.SetEach aivenClickhouseUserSchema
        [ ("project", .str projectName),
          ("service_name", .str serviceName),
          ("username", .str user.name),
          ("uuid", .str user.uuid),
          ("required", .bool user.required) ] with
    | .error (_, err, d1) => ⟨Diagnostics.fromErr (some err), d1, calls1⟩
    | .ok d1 => ⟨[], d1, calls1⟩

def resourceClickhouseUserCreate (su : Schemautil) (client : Client) (calls : List Call)
    (d : ResourceData) : Result :=
  let projectName := d.GetString "project"
  let serviceName := d.GetString "service_name"
  let username := d.GetString "username"
  let calls1 := calls ++ [Call.clickhouseUserCreate projectName serviceName username]
  match client.clickhouseUserCreate calls projectName serviceName username with
  | .error err => ⟨Diagnostics.fromErr (some err), d, calls1⟩
  | .ok u =>
    let d1 := d.SetId (su.BuildResourceID [projectName, serviceName, u.uuid])
    match d1.Set aivenClickhouseUserSchema "password" (.str u.password) with
    | .error err => ⟨Diagnostics.fromErr (some err), d1, calls1⟩
    | .ok d2 => resourceClickhouseUserRead su client calls1 d2

def resourceClickhouseUserDelete (su : Schemautil) (client : Client) (calls : List Call)
    (d : ResourceData) : Result :=
  let projectName := (su.SplitResourceID3 d.Id).1
  let serviceName := (su.SplitResourceID3 d.Id).2.1
  let uuid := (su.SplitResourceID3 d.Id).2.2
  let calls1 := calls ++ [Call.clickhouseUserDelete projectName serviceName uuid]
  match client.clickhouseUserDelete calls projectName serviceName uuid with
  | some err => if !client.IsNotFound err then ⟨Diagnostics.fromErr (some err), d, calls1⟩
                else ⟨[], d, calls1⟩
  | none => ⟨[], d, calls1⟩

/-- What an importer `StateContext` function leaves behind: the returned
resource data (`none` for nil), the returned error, the resource data it was
given as it is afterwards, and the history of API calls. -/
structure ImportResult where
  data : Option (List ResourceData)
  err : Option Err
  d : ResourceData
  calls : List Call

/-- The errors that diagnostics carry, for the operand of `%v`. -/
def Diagnostics.errs (ds : Diagnostics) : List Err := ds.map (fun dg => dg.summary)

def resourceClickhouseUserState (su : Schemautil) (client : Client) (calls : List Call)
    (d : ResourceData) : ImportResult :=
  if (stringsSplit '/' d.Id.toList).length ≠ 3 then
    ⟨none,
      some (Err.msg ("invalid identifier " ++ d.Id ++
        ", expected <project_name>/<service_name>/<uuid>")), d, calls⟩
  else
    let di := resourceClickhouseUserRead su client calls d
    if di.diags.hasError then
      ⟨none, some (Err.errorfDiags "cannot get clickhouse user: " di.diags.errs), di.d, di.calls⟩
    else ⟨some [di.d], none, di.d, di.calls⟩

def ResourceClickhouseUser : Resource :=
  { createContext := some "resourceClickhouseUserCreate"
    readContext := some "resourceClickhouseUserRead"
    deleteContext := some "resourceClickhouseUserDelete"
    importerStateContext := some "resourceClickhouseUserState"
    schema := aivenClickhouseUserSchema }

/-! ## Validators (`helper/validation`) and regular expressions -/

/-- The function `strings.EqualFold`, on ASCII letters. -/
def EqualFold (s t : String) : Bool := s.toLower == t.toLower

/-- The function `validation.StringInSlice(valid, ignoreCase)`. -/
def StringInSlice (valid : List String) (ignoreCase : Bool) : SchemaValidateFunc :=
  fun i k =>
    match i with
    | .str v =>
      if valid.any (fun str => v == str || (ignoreCase && EqualFold v str)) then ([], [])
      else ([], [Err.msg ("expected " ++ k ++ " to be one of " ++ toString valid ++ ", got " ++ v)])
    | _ => ([], [Err.msg ("expected type of " ++ k ++ " to be string")])

/-- The regular expressions of package `regexp` that the schema uses. -/
inductive Regexp where
  /-- one literal character, such as `\*` -/
  | lit (c : Char)
  /-- a character class `[...]`, the union of the ranges `lo-hi` -/
  | cls (ranges : List (Char × Char))
  /-- the anchor `^`: the beginning of the text -/
  | beginText
  /-- the anchor `$` (without flag `m`): the end of the text -/
  | endText
  /-- concatenation -/
  | cat (a b : Regexp)
  /-- alternation `a|b` -/
  | alt (a b : Regexp)
  /-- repetition `a+` -/
  | plus (a : Regexp)

/-- Membership of a character in a class given by its ranges. -/
def inRanges (ranges : List (Char × Char)) (c : Char) : Bool :=
  ranges.any (fun r => decide (r.1 ≤ c) && decide (c ≤ r.2))

/-- One or more repetitions of `step`: every text left after one repetition is
a result, and the repetition goes on from it when it consumed input. -/
def Regexp.iterate (step : List Char → List (List Char)) :
    Nat → List Char → List (List Char)
  | 0, _ => []
  | fuel + 1, s =>
    (step s).flatMap (fun t => t :: if t.length < s.length then Regexp.iterate step fuel t else [])

/-- All ways for `re` to match at the front of `s`, each given by the text left
after the match; `n` is the length of the whole text, so that a position is the
beginning of the text when `n` characters are left. -/
def Regexp.run : Regexp → Nat → List Char → List (List Char)
  | .lit c, _, s =>
    match s with
    | [] => []
    | x :: t => if x = c then [t] else []
  | .cls ranges, _, s =>
    match s with
    | [] => []
    | x :: t => if inRanges ranges x then [t] else []
  | .beginText, n, s => if s.length = n then [s] else []
  | .endText, _, s => if s = [] then [s] else []
  | .cat a b, n, s => (Regexp.run a n s).flatMap (Regexp.run b n)
  | .alt a b, n, s => Regexp.run a n s ++ Regexp.run b n s
  | .plus a, n, s => Regexp.iterate (Regexp.run a n) (s.length + 1) s

/-- The method `re.MatchString(s)`: whether `re` matches at some position of `s`. -/
def Regexp.MatchString (re : Regexp) (s : List Char) : Bool :=
  s.tails.any (fun t => !(Regexp.run re s.length t).isEmpty)

/-- The function `validation.StringMatch(r, message)`. -/
def StringMatch (r : Regexp) (message : String) : SchemaValidateFunc :=
  fun i k =>
    match i with
    | .str v =>
      if !(r.MatchString v.toList) then
        if message ≠ "" then ([], [Err.msg ("invalid value for " ++ k ++ " (" ++ message ++ ")")])
        else ([], [Err.msg ("expected value of " ++ k ++ " to match regular expression, got " ++ v)])
      else ([], [])
    | _ => ([], [Err.msg ("expected type of " ++ k ++ " to be string")])

/-! ## Kafka ACL (`internal/service/kafka/resource_kafka_acl.go`) -/

/-- The class `[a-zA-Z0-9-_?]`. -/
def usernameFirstClass : List (Char × Char) :=
  [('a', 'z'), ('A', 'Z'), ('0', '9'), ('-', '-'), ('_', '_'), ('?', '?')]

/-- The class `[a-zA-Z0-9-_?*]`. -/
def usernameRestClass : List (Char × Char) :=
  [('a', 'z'), ('A', 'Z'), ('0', '9'), ('-', '-'), ('_', '_'), ('?', '?'), ('*', '*')]

/-- The expression `^(\*$|[a-zA-Z0-9-_?][a-zA-Z0-9-_?*]+)$`. -/
def usernameRegexp : Regexp :=
  .cat .beginText
    (.cat
      (.alt (.cat (.lit '*') .endText)
        (.cat (.cls usernameFirstClass) (.plus (.cls usernameRestClass))))
      .endText)

def permissionValidateFunc : SchemaValidateFunc :=
  StringInSlice ["admin", "read", "readwrite", "write"] false

def usernameValidateFunc : SchemaValidateFunc :=
  StringMatch usernameRegexp "username should be alphanumeric"

def aivenKafkaACLSchema : SchemaMap :=
  [ ("project", CommonSchemaProjectReference),
    ("service_name", CommonSchemaServiceNameReference),
    ("permission",
      { type := ValueType.typeString, required := true, forceNew := true,
        validateFunc := some permissionValidateFunc }),
    ("topic", { type := ValueType.typeString, required := true, forceNew := true }),
    ("username",
      { type := ValueType.typeString, required := true, forceNew := true,
        validateFunc := some usernameValidateFunc }) ]

def ResourceKafkaACL : Resource :=
  { createContext := some "resourceKafkaACLCreate"
    readContext := some "resourceKafkaACLRead"
    deleteContext := some "resourceKafkaACLDelete"
    importerStateContext := some "resourceKafkaACLState"
    schema := aivenKafkaACLSchema }

def copyKafkaACLPropertiesFromAPIResponseToTerraform (d : ResourceData) (acl : KafkaACL)
    (project serviceName : String) : Option Err × ResourceData :=
  match d.SetEach aivenKafkaACLSchema
      [ ("project", .str project),
        ("service_name", .str serviceName),
        ("topic", .str acl.topic),
        ("permission", .str acl.permission),
        ("username", .str acl.username) ] with
  | .error (_, err, d1) => (some err, d1)
  | .ok d1 => (none, d1)

def resourceKafkaACLRead (su : Schemautil) (client : Client) (calls : List Call)
    (d : ResourceData) : Result :=
  let project := (su.SplitResourceID3 d.Id).1
  let serviceName := (su.SplitResourceID3 d.Id).2.1
  let aclID := (su.SplitResourceID3 d.Id).2.2
  let calls1 := calls ++ [Call.aclCacheRead project serviceName aclID]
  match client.aclCacheRead calls project serviceName aclID with
  | .error err =>
    ⟨Diagnostics.fromErr (ResourceReadHandleNotFound client err d).1,
      (ResourceReadHandleNotFound client err d).2, calls1⟩
  | .ok acl =>
    match copyKafkaACLPropertiesFromAPIResponseToTerraform d acl project serviceName with
    | (some err, d1) => ⟨Diagnostics.fromErr (some err), d1, calls1⟩
    | (none, d1) => ⟨[], d1, calls1⟩

def resourceKafkaACLCreate (su : Schemautil) (client : Client) (calls : List Call)
    (d : ResourceData) : Result :=
  let project := d.GetString "project"
  let serviceName := d.GetString "service_name"
  let permission := d.GetString "permission"
  let topic := d.GetString "topic"
  let username := d.GetString "username"
  let calls1 := calls ++ [Call.kafkaACLsCreate project serviceName permission topic username]
  match client.kafkaACLsCreate calls project serviceName permission topic username with
  | .error err => ⟨Diagnostics.fromErr (some err), d, calls1⟩
  | .ok acl =>
    resourceKafkaACLRead su client calls1
      (d.SetId (su.BuildResourceID [project, serviceName, acl.id]))

def resourceKafkaACLDelete (su : Schemautil) (client : Client) (calls : List Call)
    (d : ResourceData) : Result :=
  let projectName := (su.SplitResourceID3 d.Id).1
  let serviceName := (su.SplitResourceID3 d.Id).2.1
  let aclID := (su.SplitResourceID3 d.Id).2.2
  let calls1 := calls ++ [Call.kafkaACLsDelete projectName serviceName aclID]
  match client.kafkaACLsDelete calls projectName serviceName aclID with
  | some err => if !client.IsNotFound err then ⟨Diagnostics.fromErr (some err), d, calls1⟩
                else ⟨[], d, calls1⟩
  | none => ⟨[], d, calls1⟩

def resourceKafkaACLState (su : Schemautil) (client : Client) (calls : List Call)
    (d : ResourceData) : ImportResult :=
  if (stringsSplit '/' d.Id.toList).length ≠ 3 then
    ⟨none,
      some (Err.msg ("invalid identifier " ++ d.Id ++
        ", expected <project_name>/<service_name>/<acl_id>")), d, calls⟩
  else
    let di := resourceKafkaACLRead su client calls d
    if di.diags.hasError then
      ⟨none, some (Err.errorfDiags "cannot get kafka acl: " di.diags.errs), di.d, di.calls⟩
    else ⟨some [di.d], none, di.d, di.calls⟩

/-- Whether a change of configuration from `old` to `new` forces the resource
to be recreated: some attribute marked `ForceNew` differs. -/
def requiresNew (sm : SchemaMap) (old new : String → Option Value) : Bool :=
  sm.any (fun kv => kv.2.forceNew && decide (old kv.1 ≠ new kv.1))

/-! ## Concrete values used in the examples -/

def exampleSchemautil : Schemautil :=
  { SplitResourceID2 := fun id =>
      match stringsSplit '/' id.toList with
      | [a, b] => (String.mk a, String.mk b)
      | _ => ("", "")
    SplitResourceID3 := fun id =>
      match stringsSplit '/' id.toList with
      | [a, b, c] => (String.mk a, String.mk b, String.mk c)
      | _ => ("", "", "")
    BuildResourceID := fun parts => "/".intercalate parts }

/-! ## Specification-side notions -/

/-- An error is a timeout error when it is the SDK's `TimeoutError`, possibly
inside the text of `fmt.Errorf` wrappers. -/
def Err.isTimeout : Err → Bool
  | .timeout _ _ _ _ => true
  | .errorf _ cause => cause.isTimeout
  | _ => false

/-- What one List call made at history `calls` shows of the static IP `id`: the
error of the call, or the state of the first list entry with that id, or
`waiting` when no entry has it. -/
def observedState (client : Client) (project id : String) (calls : List Call) :
    Except Err String :=
  match client.staticIPsList calls project with
  | .error e => .error e
  | .ok ips =>
    match findStaticIP id ips with
    | some sip => .ok sip.state
    | none => .ok "waiting"

/-- The call history of a wait that started at `calls`, after `i` List calls. -/
def historyAfter (calls : List Call) (project : String) (i : Nat) : List Call :=
  calls ++ List.replicate i (Call.staticIPsList project)

/-- Whether the clock is one of a deadline that elapses with the context live. -/
def Clock.isDeadline : Clock → Bool
  | .deadlineInFlight _ _ => true
  | .deadlineWaiting _ => true
  | _ => false

/-- Whether the result of refresh number `k + 1` is received: in time, or
within the grace period after the deadline. -/
def Clock.receives (clock : Clock) (k : Nat) : Bool :=
  decide (k < clock.inTime) ||
    match clock with
    | .deadlineInFlight before true => k == before
    | _ => false

/-- The diagnostics of a delete as a function of the outcome of the remote
Delete call alone: none for success and for a not-found error. -/
def deleteDiagnostics (isNotFound : Err → Bool) : Option Err → Diagnostics
  | none => []
  | some e => if isNotFound e then [] else [⟨Severity.error, e⟩]

/-- A not-found classification for the examples: status 404. -/
def exampleIsNotFound : Err → Bool
  | .api status _ => status == 404
  | _ => false

/-- An error of the remote service for the examples. -/
def exampleError : Err := Err.api 500 "internal server error"

/-- A static IP in state `created` for the examples. -/
def exampleStaticIP : StaticIP :=
  { cloudName := "aws-eu-west-1", ipAddress := "10.0.0.1", serviceName := "",
    state := "created", staticIPAddressID := "ip1" }

/-- A Clickhouse user for the examples. -/
def exampleUser : ClickhouseUser :=
  { name := "alice", password := "s3cret", required := false, uuid := "u1" }

/-- A client all of whose calls fail with the error `e`. -/
def failingClient (e : Err) : Client :=
  { staticIPsList := fun _ _ => .error e
    staticIPsCreate := fun _ _ _ => .error e
    staticIPsDelete := fun _ _ _ => some e
    clickhouseUserCreate := fun _ _ _ _ => .error e
    clickhouseUserGet := fun _ _ _ _ => .error e
    clickhouseUserDelete := fun _ _ _ _ => some e
    kafkaACLsCreate := fun _ _ _ _ _ _ => .error e
    kafkaACLsDelete := fun _ _ _ _ => some e
    aclCacheRead := fun _ _ _ _ => .error e
    IsNotFound := exampleIsNotFound }

/-- A client whose List call answers `ips` and whose other calls fail. -/
def listingClient (ips : List StaticIP) : Client :=
  { failingClient exampleError with staticIPsList := fun _ _ => .ok ips }

/-- A client that creates and returns `exampleUser` and whose other calls fail. -/
def userClient : Client :=
  { failingClient exampleError with
    clickhouseUserCreate := fun _ _ _ _ => .ok exampleUser
    clickhouseUserGet := fun _ _ _ _ => .ok { exampleUser with password := "" } }

/-- A client whose first List call shows `exampleStaticIP` as `creating` and
whose later List calls show it as `created`; its other calls fail. -/
def progressingClient : Client :=
  { failingClient exampleError with
    staticIPsList := fun calls _ =>
      if calls.isEmpty then .ok [{ exampleStaticIP with state := "creating" }]
      else .ok [exampleStaticIP] }

/-- An ASCII letter, a digit, or one of the characters `-`, `_`, `?`. -/
def isUsernameFirstChar (c : Char) : Bool :=
  c.isAlpha || c.isDigit || c == '-' || c == '_' || c == '?'

/-- An ASCII letter, a digit, or one of the characters `-`, `_`, `?`, `*`. -/
def isUsernameRestChar (c : Char) : Bool :=
  isUsernameFirstChar c || c == '*'

/-! ## Theorems -/

theorem deleteDiagnostics_eq_nil_iff (f : Err → Bool) (r : Option Err) :
    deleteDiagnostics f r = [] ↔ (r = none ∨ ∃ e, r = some e ∧ f e = true) := by
  cases r with
  | none => simp [deleteDiagnostics]
  | some e => cases hf : f e <;> simp [deleteDiagnostics, hf]

theorem deleteDiagnostics_of_error (f : Err → Bool) (r : Option Err) (e : Err)
    (h : r = some e ∧ f e = false) : deleteDiagnostics f r = Diagnostics.fromErr (some e) := by
  simp [deleteDiagnostics, h.1, h.2, Diagnostics.fromErr]

theorem resourceStaticIPDelete_eq (su : Schemautil) (client : Client) (calls : List Call)
    (d : ResourceData) :
    resourceStaticIPDelete su client calls d =
      ⟨deleteDiagnostics client.IsNotFound
          (client.staticIPsDelete calls (su.SplitResourceID2 d.Id).1 (su.SplitResourceID2 d.Id).2),
        d,
        calls ++ [Call.staticIPsDelete (su.SplitResourceID2 d.Id).1 (su.SplitResourceID2 d.Id).2]⟩ := by
  simp only [resourceStaticIPDelete]
  cases h : client.staticIPsDelete calls (su.SplitResourceID2 d.Id).1
      (su.SplitResourceID2 d.Id).2 with
  | none => simp [deleteDiagnostics]
  | some e => cases hn : client.IsNotFound e <;> simp [hn, deleteDiagnostics, Diagnostics.fromErr]

theorem resourceClickhouseUserDelete_eq (su : Schemautil) (client : Client) (calls : List Call)
    (d : ResourceData) :
    resourceClickhouseUserDelete su client calls d =
      ⟨deleteDiagnostics client.IsNotFound
          (client.clickhouseUserDelete calls (su.SplitResourceID3 d.Id).1
            (su.SplitResourceID3 d.Id).2.1 (su.SplitResourceID3 d.Id).2.2),
        d,
        calls ++ [Call.clickhouseUserDelete (su.SplitResourceID3 d.Id).1
          (su.SplitResourceID3 d.Id).2.1 (su.SplitResourceID3 d.Id).2.2]⟩ := by
  simp only [resourceClickhouseUserDelete]
  cases h : client.clickhouseUserDelete calls (su.SplitResourceID3 d.Id).1
      (su.SplitResourceID3 d.Id).2.1 (su.SplitResourceID3 d.Id).2.2 with
  | none => simp [deleteDiagnostics]
  | some e => cases hn : client.IsNotFound e <;> simp [hn, deleteDiagnostics, Diagnostics.fromErr]

theorem resourceKafkaACLDelete_eq (su : Schemautil) (client : Client) (calls : List Call)
    (d : ResourceData) :
    resourceKafkaACLDelete su client calls d =
      ⟨deleteDiagnostics client.IsNotFound
          (client.kafkaACLsDelete calls (su.SplitResourceID3 d.Id).1
            (su.SplitResourceID3 d.Id).2.1 (su.SplitResourceID3 d.Id).2.2),
        d,
        calls ++ [Call.kafkaACLsDelete (su.SplitResourceID3 d.Id).1
          (su.SplitResourceID3 d.Id).2.1 (su.SplitResourceID3 d.Id).2.2]⟩ := by
  simp only [resourceKafkaACLDelete]
  cases h : client.kafkaACLsDelete calls (su.SplitResourceID3 d.Id).1
      (su.SplitResourceID3 d.Id).2.1 (su.SplitResourceID3 d.Id).2.2 with
  | none => simp [deleteDiagnostics]
  | some e => cases hn : client.IsNotFound e <;> simp [hn, deleteDiagnostics, Diagnostics.fromErr]

/-- C1: each of the three delete callbacks returns no diagnostics exactly when
the remote Delete call returned no error or an error that `IsNotFound` accepts,
and returns any other error as its single error diagnostic. -/
theorem delete_succeeds_iff_no_error_or_not_found (su : Schemautil) (client : Client)
    (calls : List Call) (d : ResourceData) :
    (((resourceStaticIPDelete su client calls d).diags = [] ↔
        (client.staticIPsDelete calls (su.SplitResourceID2 d.Id).1 (su.SplitResourceID2 d.Id).2
            = none ∨
          ∃ e, client.staticIPsDelete calls (su.SplitResourceID2 d.Id).1
              (su.SplitResourceID2 d.Id).2 = some e ∧ client.IsNotFound e = true)) ∧
      ∀ e, client.staticIPsDelete calls (su.SplitResourceID2 d.Id).1
          (su.SplitResourceID2 d.Id).2 = some e ∧ client.IsNotFound e = false →
        (resourceStaticIPDelete su client calls d).diags = Diagnostics.fromErr (some e)) ∧
    (((resourceClickhouseUserDelete su client calls d).diags = [] ↔
        (client.clickhouseUserDelete calls (su.SplitResourceID3 d.Id).1
            (su.SplitResourceID3 d.Id).2.1 (su.SplitResourceID3 d.Id).2.2 = none ∨
          ∃ e, client.clickhouseUserDelete calls (su.SplitResourceID3 d.Id).1
              (su.SplitResourceID3 d.Id).2.1 (su.SplitResourceID3 d.Id).2.2 = some e ∧
            client.IsNotFound e = true)) ∧
      ∀ e, client.clickhouseUserDelete calls (su.SplitResourceID3 d.Id).1
          (su.SplitResourceID3 d.Id).2.1 (su.SplitResourceID3 d.Id).2.2 = some e ∧
          client.IsNotFound e = false →
        (resourceClickhouseUserDelete su client calls d).diags = Diagnostics.fromErr (some e)) ∧
    (((resourceKafkaACLDelete su client calls d).diags = [] ↔
        (client.kafkaACLsDelete calls (su.SplitResourceID3 d.Id).1
            (su.SplitResourceID3 d.Id).2.1 (su.SplitResourceID3 d.Id).2.2 = none ∨
          ∃ e, client.kafkaACLsDelete calls (su.SplitResourceID3 d.Id).1
              (su.SplitResourceID3 d.Id).2.1 (su.SplitResourceID3 d.Id).2.2 = some e ∧
            client.IsNotFound e = true)) ∧
      ∀ e, client.kafkaACLsDelete calls (su.SplitResourceID3 d.Id).1
          (su.SplitResourceID3 d.Id).2.1 (su.SplitResourceID3 d.Id).2.2 = some e ∧
          client.IsNotFound e = false →
        (resourceKafkaACLDelete su client calls d).diags = Diagnostics.fromErr (some e)) := by
  rw [resourceStaticIPDelete_eq, resourceClickhouseUserDelete_eq, resourceKafkaACLDelete_eq]
  exact ⟨⟨deleteDiagnostics_eq_nil_iff _ _, fun e h => deleteDiagnostics_of_error _ _ e h⟩,
    ⟨deleteDiagnostics_eq_nil_iff _ _, fun e h => deleteDiagnostics_of_error _ _ e h⟩,
    ⟨deleteDiagnostics_eq_nil_iff _ _, fun e h => deleteDiagnostics_of_error _ _ e h⟩⟩

/-- C5: deleting a static IP issues exactly one remote Delete call, for the
project and static-IP id obtained by splitting the resource ID; the diagnostics
are a function of the error of that call alone; the resource data is left as it
is; and two resources with the same ID and any attribute values (such as
different `state` attributes, `assigned` included) give the same call and the
same diagnostics. -/
theorem static_ip_delete_not_blocked_locally (su : Schemautil) (client : Client)
    (calls : List Call) (id : String) (attrs attrs2 : String → Option Value) :
    (resourceStaticIPDelete su client calls ⟨id, attrs⟩).calls =
        calls ++ [Call.staticIPsDelete (su.SplitResourceID2 id).1 (su.SplitResourceID2 id).2] ∧
    (resourceStaticIPDelete su client calls ⟨id, attrs⟩).diags =
        deleteDiagnostics client.IsNotFound
          (client.staticIPsDelete calls (su.SplitResourceID2 id).1 (su.SplitResourceID2 id).2) ∧
    (resourceStaticIPDelete su client calls ⟨id, attrs⟩).d = ⟨id, attrs⟩ ∧
    (resourceStaticIPDelete su client calls
        ⟨id, fun k => if k = "state" then some (.str "assigned") else attrs k⟩).calls =
      (resourceStaticIPDelete su client calls ⟨id, attrs⟩).calls ∧
    (resourceStaticIPDelete su client calls
        ⟨id, fun k => if k = "state" then some (.str "assigned") else attrs k⟩).diags =
      (resourceStaticIPDelete su client calls ⟨id, attrs⟩).diags ∧
    (resourceStaticIPDelete su client calls ⟨id, attrs2⟩).calls =
      (resourceStaticIPDelete su client calls ⟨id, attrs⟩).calls ∧
    (resourceStaticIPDelete su client calls ⟨id, attrs2⟩).diags =
      (resourceStaticIPDelete su client calls ⟨id, attrs⟩).diags := by
  simp only [resourceStaticIPDelete_eq, ResourceData.Id, and_self]

theorem stringInSlice_exact (valid : List String) (s k : String) :
    (StringInSlice valid false (.str s) k).2 = [] ↔ s ∈ valid := by
  unfold StringInSlice
  by_cases h : s ∈ valid
  · have : (valid.any fun str => s == str || (false && EqualFold s str)) = true := by
      simp only [Bool.false_and, Bool.or_false, List.any_eq_true, beq_iff_eq]
      exact ⟨s, h, rfl⟩
    simp [this, h]
  · have : (valid.any fun str => s == str || (false && EqualFold s str)) = false := by
      simp only [Bool.false_and, Bool.or_false, List.any_eq_false, beq_iff_eq]
      intro x hx hsx
      exact h (hsx ▸ hx)
    simp [this, h]

/-- C7: the validator of the Kafka ACL `permission` attribute accepts a string
exactly when it is one of `admin`, `read`, `readwrite`, `write`, compared
case-sensitively, and reports an error for every other string; `Admin` and the
empty string are rejected. -/
theorem permission_validator_accepts_exactly_enum (s k : String) :
    (∃ sch, aivenKafkaACLSchema.lookup "permission" = some sch ∧
        sch.validateFunc = some permissionValidateFunc) ∧
    ((permissionValidateFunc (.str s) k).2 = [] ↔
        (s = "admin" ∨ s = "read" ∨ s = "readwrite" ∨ s = "write")) ∧
    (permissionValidateFunc (.str "Admin") k).2 ≠ [] ∧
    (permissionValidateFunc (.str "ADMIN") k).2 ≠ [] ∧
    (permissionValidateFunc (.str "") k).2 ≠ [] := by
  refine ⟨⟨_, rfl, rfl⟩, ?_, ?_, ?_, ?_⟩
  · rw [permissionValidateFunc, stringInSlice_exact]
    simp
  · rw [permissionValidateFunc, Ne, stringInSlice_exact]
    decide
  · rw [permissionValidateFunc, Ne, stringInSlice_exact]
    decide
  · rw [permissionValidateFunc, Ne, stringInSlice_exact]
    decide

/-- C8: spec-modelled for `project` and `service_name`.  Every field of
`aivenKafkaACLSchema` (project, service_name, permission, topic, username) is
marked ForceNew, so a change of configuration forces recreation exactly when it
changes one of these fields, and `ResourceKafkaACL` registers create, read,
delete and import callbacks and no update callback. -/
theorem kafka_acl_immutable_after_creation (old new : String → Option Value) :
    aivenKafkaACLSchema.map (fun kv => kv.1) =
        ["project", "service_name", "permission", "topic", "username"] ∧
    aivenKafkaACLSchema.all (fun kv => kv.2.forceNew) = true ∧
    (requiresNew aivenKafkaACLSchema old new = true ↔
        ∃ key ∈ ["project", "service_name", "permission", "topic", "username"],
          old key ≠ new key) ∧
    ResourceKafkaACL.schema = aivenKafkaACLSchema ∧
    ResourceKafkaACL.updateContext = none ∧
    ResourceKafkaACL.createContext = some "resourceKafkaACLCreate" ∧
    ResourceKafkaACL.readContext = some "resourceKafkaACLRead" ∧
    ResourceKafkaACL.deleteContext = some "resourceKafkaACLDelete" ∧
    ResourceKafkaACL.importerStateContext = some "resourceKafkaACLState" := by
  refine ⟨rfl, rfl, ?_, rfl, rfl, rfl, rfl, rfl, rfl⟩
  · simp [requiresNew, aivenKafkaACLSchema, CommonSchemaProjectReference,
      CommonSchemaServiceNameReference]

theorem findStaticIP_eq_none (id : String) (ips : List StaticIP) :
    findStaticIP id ips = none ↔ ∀ sip ∈ ips, sip.staticIPAddressID ≠ id := by
  simp [findStaticIP]

theorem findStaticIP_first (id : String) (pre post : List StaticIP) (sip : StaticIP)
    (hpre : ∀ x ∈ pre, x.staticIPAddressID ≠ id) (hsip : sip.staticIPAddressID = id) :
    findStaticIP id (pre ++ sip :: post) = some sip := by
  induction pre with
  | nil => simp [findStaticIP, hsip]
  | cons x xs ih =>
    have hx : x.staticIPAddressID ≠ id := hpre x (List.mem_cons_self _ _)
    have hxs : ∀ y ∈ xs, y.staticIPAddressID ≠ id :=
      fun y hy => hpre y (List.mem_cons_of_mem _ hy)
    have := ih hxs
    simp only [findStaticIP] at this ⊢
    simp [List.find?_cons, hx, this]

theorem staticIPRefresh_eq (client : Client) (project id : String) (calls : List Call) :
    staticIPRefresh client project id calls =
      (match observedState client project id calls with
        | .error e => ⟨none, "", some (Err.errorf "unable to fetch static ips: " e)⟩
        | .ok s => ⟨some (), s, none⟩,
        calls ++ [Call.staticIPsList project]) := by
  cases h : client.staticIPsList calls project with
  | error e => simp [staticIPRefresh, observedState, h]
  | ok ips => cases hf : findStaticIP id ips <;> simp [staticIPRefresh, observedState, h, hf]

theorem observedState_created_iff (client : Client) (project id : String)
    (calls : List Call) :
    observedState client project id calls = .ok "created" ↔
      ∃ ips sip, client.staticIPsList calls project = .ok ips ∧
        findStaticIP id ips = some sip ∧ sip.state = "created" := by
  cases h : client.staticIPsList calls project with
  | error e => simp [observedState, h]
  | ok ips =>
    cases hf : findStaticIP id ips with
    | none =>
      have hne : ("waiting" : String) ≠ "created" := by decide
      simp [observedState, h, hf, hne]
    | some sip => simp [observedState, h, hf]

theorem waitLoop_staticIP_created (client : Client) (project id : String) (t : Nat)
    (clock : Clock) (n tick : Nat) (last : String) (calls : List Call)
    (h : observedState client project id calls = .ok "created") :
    waitLoop (staticIPWaitConf client project id t) clock (n + 1) tick last calls =
      (none, calls ++ [Call.staticIPsList project]) := by
  simp [waitLoop, staticIPWaitConf, staticIPRefresh_eq, h, StateChangeConf.verdict]

theorem waitLoop_staticIP_error (client : Client) (project id : String) (t : Nat)
    (clock : Clock) (n tick : Nat) (last : String) (calls : List Call) (e : Err)
    (h : observedState client project id calls = .error e) :
    waitLoop (staticIPWaitConf client project id t) clock (n + 1) tick last calls =
      (some (Err.errorf "unable to fetch static ips: " e),
        calls ++ [Call.staticIPsList project]) := by
  simp [waitLoop, staticIPWaitConf, staticIPRefresh_eq, h, StateChangeConf.verdict]

theorem waitLoop_staticIP_pending (client : Client) (project id : String) (t : Nat)
    (clock : Clock) (n tick : Nat) (last : String) (calls : List Call) (s : String)
    (h : observedState client project id calls = .ok s)
    (hs : s = "creating" ∨ s = "waiting") :
    waitLoop (staticIPWaitConf client project id t) clock (n + 1) tick last calls =
      waitLoop (staticIPWaitConf client project id t) clock n 0 s
        (calls ++ [Call.staticIPsList project]) := by
  have h1 : ("creating" : String) ≠ "created" := by decide
  have h2 : ("waiting" : String) ≠ "created" := by decide
  rcases hs with rfl | rfl <;>
    simp [waitLoop, staticIPWaitConf, staticIPRefresh_eq, h, StateChangeConf.verdict, h1, h2]

theorem waitLoop_staticIP_unexpected (client : Client) (project id : String) (t : Nat)
    (clock : Clock) (n tick : Nat) (last : String) (calls : List Call) (s : String)
    (h : observedState client project id calls = .ok s)
    (hs : s ∉ ["created", "creating", "waiting"]) :
    waitLoop (staticIPWaitConf client project id t) clock (n + 1) tick last calls =
      (some (Err.unexpectedState s ["created"]), calls ++ [Call.staticIPsList project]) := by
  simp only [List.mem_cons, List.mem_singleton, List.not_mem_nil, or_false, not_or] at hs
  simp [waitLoop, staticIPWaitConf, staticIPRefresh_eq, h, StateChangeConf.verdict, hs.1,
    hs.2.1, hs.2.2]

theorem historyAfter_zero (calls : List Call) (project : String) :
    historyAfter calls project 0 = calls := by
  simp [historyAfter]

theorem historyAfter_succ (calls : List Call) (project : String) (i : Nat) :
    historyAfter (calls ++ [Call.staticIPsList project]) project i =
      historyAfter calls project (i + 1) := by
  simp [historyAfter, List.replicate_succ]

theorem historyAfter_succ_right (calls : List Call) (project : String) (i : Nat) :
    historyAfter calls project i ++ [Call.staticIPsList project] =
      historyAfter calls project (i + 1) := by
  simp [historyAfter, List.replicate_succ']

/-- C9: the refresh step of the static-IP poll makes one List call; it returns
an error, with the empty state and a nil result, exactly when the List call
failed; otherwise it returns a non-nil result and no error, with the state of
the first list entry whose id is the wanted one, or `waiting` when no entry
matches.  `waiting` is a pending state of the poll, so a static IP missing from
the list makes the poll go on. -/
theorem refresh_is_list_and_match (client : Client) (project id : String)
    (calls : List Call) (createTimeout : Nat) :
    (staticIPWaitConf client project id createTimeout).refresh =
        staticIPRefresh client project id ∧
    (staticIPRefresh client project id calls).2 = calls ++ [Call.staticIPsList project] ∧
    ((staticIPRefresh client project id calls).1.err ≠ none ↔
        ∃ e, client.staticIPsList calls project = .error e) ∧
    (∀ e, client.staticIPsList calls project = .error e →
        (staticIPRefresh client project id calls).1.err =
            some (Err.errorf "unable to fetch static ips: " e) ∧
          (staticIPRefresh client project id calls).1.state = "" ∧
          (staticIPRefresh client project id calls).1.result = none) ∧
    (∀ ips, client.staticIPsList calls project = .ok ips →
        (staticIPRefresh client project id calls).1.err = none ∧
          (staticIPRefresh client project id calls).1.result = some () ∧
          ((∀ sip ∈ ips, sip.staticIPAddressID ≠ id) →
            (staticIPRefresh client project id calls).1.state = "waiting") ∧
          (∀ pre sip post, ips = pre ++ sip :: post →
            (∀ x ∈ pre, x.staticIPAddressID ≠ id) → sip.staticIPAddressID = id →
            (staticIPRefresh client project id calls).1.state = sip.state)) ∧
    "waiting" ∈ (staticIPWaitConf client project id createTimeout).pending ∧
    "waiting" ∉ (staticIPWaitConf client project id createTimeout).target ∧
    (∀ clock ips n tick last, client.staticIPsList calls project = .ok ips →
        (∀ sip ∈ ips, sip.staticIPAddressID ≠ id) →
        waitLoop (staticIPWaitConf client project id createTimeout) clock (n + 1) tick last
            calls =
          waitLoop (staticIPWaitConf client project id createTimeout) clock n 0 "waiting"
            (calls ++ [Call.staticIPsList project])) := by
  refine ⟨rfl, ?_, ?_, ?_, ?_, ?_, ?_, ?_⟩
  · cases h : client.staticIPsList calls project with
    | error e => simp [staticIPRefresh, h]
    | ok ips => cases hf : findStaticIP id ips <;> simp [staticIPRefresh, h, hf]
  · cases h : client.staticIPsList calls project with
    | error e => simp [staticIPRefresh, h]
    | ok ips => cases hf : findStaticIP id ips <;> simp [staticIPRefresh, h, hf]
  · intro e h
    simp [staticIPRefresh, h]
  · intro ips h
    refine ⟨?_, ?_, ?_, ?_⟩
    · cases hf : findStaticIP id ips <;> simp [staticIPRefresh, h, hf]
    · cases hf : findStaticIP id ips <;> simp [staticIPRefresh, h, hf]
    · intro hnone
      have hf := (findStaticIP_eq_none id ips).2 hnone
      simp [staticIPRefresh, h, hf]
    · intro pre sip post hips hpre hsip
      have hf := findStaticIP_first id pre post sip hpre hsip
      rw [← hips] at hf
      simp [staticIPRefresh, h, hf]
  · simp [staticIPWaitConf]
  · simp [staticIPWaitConf]
  · intro clock ips n tick last h hnone
    have hobs : observedState client project id calls = .ok "waiting" := by
      simp [observedState, h, (findStaticIP_eq_none id ips).2 hnone]
    exact waitLoop_staticIP_pending client project id createTimeout clock n tick last calls
      "waiting" hobs (Or.inr rfl)

theorem waitLoop_staticIP_run (client : Client) (project id : String) (t : Nat)
    (clock : Clock) :
    ∀ (n tick : Nat) (last : String) (calls : List Call),
      (∀ k, k < n →
        (∀ i, i < k →
          (observedState client project id (historyAfter calls project i) = .ok "creating" ∨
            observedState client project id (historyAfter calls project i) = .ok "waiting")) →
        (observedState client project id (historyAfter calls project k) = .ok "created" →
          waitLoop (staticIPWaitConf client project id t) clock n tick last calls =
            (none, historyAfter calls project (k + 1))) ∧
        (∀ e, observedState client project id (historyAfter calls project k) = .error e →
          waitLoop (staticIPWaitConf client project id t) clock n tick last calls =
            (some (Err.errorf "unable to fetch static ips: " e),
              historyAfter calls project (k + 1))) ∧
        (∀ s, observedState client project id (historyAfter calls project k) = .ok s →
          s ∉ ["created", "creating", "waiting"] →
          waitLoop (staticIPWaitConf client project id t) clock n tick last calls =
            (some (Err.unexpectedState s ["created"]), historyAfter calls project (k + 1)))) ∧
      ((∀ i, i < n →
          (observedState client project id (historyAfter calls project i) = .ok "creating" ∨
            observedState client project id (historyAfter calls project i) = .ok "waiting")) →
        ∃ tick1 last1,
          waitLoop (staticIPWaitConf client project id t) clock n tick last calls =
            waitEnd (staticIPWaitConf client project id t) clock tick1 last1
              (historyAfter calls project n)) := by
  intro n
  induction n with
  | zero =>
    intro tick last calls
    exact ⟨fun k hk => absurd hk (Nat.not_lt_zero _),
      fun _ => ⟨tick, last, by simp [waitLoop, historyAfter_zero]⟩⟩
  | succ n ih =>
    intro tick last calls
    have hone : calls ++ [Call.staticIPsList project] = historyAfter calls project (0 + 1) := by
      simp [historyAfter]
    constructor
    · intro k hk hpend
      cases k with
      | zero =>
        rw [historyAfter_zero]
        refine ⟨fun h => ?_, fun e h => ?_, fun s h hs => ?_⟩
        · rw [waitLoop_staticIP_created client project id t clock n tick last calls h, hone]
        · rw [waitLoop_staticIP_error client project id t clock n tick last calls e h, hone]
        · rw [waitLoop_staticIP_unexpected client project id t clock n tick last calls s h hs,
            hone]
      | succ k =>
        have h0 := hpend 0 (Nat.succ_pos k)
        rw [historyAfter_zero] at h0
        obtain ⟨s, hs0, hsp⟩ : ∃ s, observedState client project id calls = .ok s ∧
            (s = "creating" ∨ s = "waiting") := by
          rcases h0 with h | h
          · exact ⟨_, h, Or.inl rfl⟩
          · exact ⟨_, h, Or.inr rfl⟩
        rw [waitLoop_staticIP_pending client project id t clock n tick last calls s hs0 hsp]
        have hi := (ih 0 s (calls ++ [Call.staticIPsList project])).1 k
          (Nat.lt_of_succ_lt_succ hk)
          (fun i hi => by
            rw [historyAfter_succ]
            exact hpend (i + 1) (Nat.succ_lt_succ hi))
        simpa only [historyAfter_succ] using hi
    · intro hpend
      have h0 := hpend 0 (Nat.succ_pos n)
      rw [historyAfter_zero] at h0
      obtain ⟨s, hs0, hsp⟩ : ∃ s, observedState client project id calls = .ok s ∧
          (s = "creating" ∨ s = "waiting") := by
        rcases h0 with h | h
        · exact ⟨_, h, Or.inl rfl⟩
        · exact ⟨_, h, Or.inr rfl⟩
      rw [waitLoop_staticIP_pending client project id t clock n tick last calls s hs0 hsp]
      have hi := (ih 0 s (calls ++ [Call.staticIPsList project])).2
        (fun i hi => by
          rw [historyAfter_succ]
          exact hpend (i + 1) (Nat.succ_lt_succ hi))
      simpa only [historyAfter_succ] using hi

theorem waitLoop_staticIP_cases (client : Client) (project id : String) (t : Nat)
    (clock : Clock) (n tick : Nat) (last : String) (calls : List Call) :
    (∃ k, k < n ∧
      observedState client project id (historyAfter calls project k) = .ok "created" ∧
      waitLoop (staticIPWaitConf client project id t) clock n tick last calls =
        (none, historyAfter calls project (k + 1))) ∨
    (∃ k e, k < n ∧
      observedState client project id (historyAfter calls project k) = .error e ∧
      waitLoop (staticIPWaitConf client project id t) clock n tick last calls =
        (some (Err.errorf "unable to fetch static ips: " e),
          historyAfter calls project (k + 1))) ∨
    (∃ k s, k < n ∧
      observedState client project id (historyAfter calls project k) = .ok s ∧
      s ∉ ["created", "creating", "waiting"] ∧
      waitLoop (staticIPWaitConf client project id t) clock n tick last calls =
        (some (Err.unexpectedState s ["created"]), historyAfter calls project (k + 1))) ∨
    ((∀ i, i < n →
        (observedState client project id (historyAfter calls project i) = .ok "creating" ∨
          observedState client project id (historyAfter calls project i) = .ok "waiting")) ∧
      ∃ tick1 last1,
        waitLoop (staticIPWaitConf client project id t) clock n tick last calls =
          waitEnd (staticIPWaitConf client project id t) clock tick1 last1
            (historyAfter calls project n)) := by
  obtain ⟨hA, hB⟩ := waitLoop_staticIP_run client project id t clock n tick last calls
  by_cases hall : ∀ i, i < n →
      (observedState client project id (historyAfter calls project i) = .ok "creating" ∨
        observedState client project id (historyAfter calls project i) = .ok "waiting")
  · exact Or.inr (Or.inr (Or.inr ⟨hall, hB hall⟩))
  · have hex : ∃ i, i < n ∧
        ¬ (observedState client project id (historyAfter calls project i) = .ok "creating" ∨
          observedState client project id (historyAfter calls project i) = .ok "waiting") := by
      by_contra hcon
      exact hall (fun i hi => by
        by_contra hp
        exact hcon ⟨i, hi, hp⟩)
    classical
    have hk := Nat.find_spec hex
    have hmin : ∀ i, i < Nat.find hex →
        (observedState client project id (historyAfter calls project i) = .ok "creating" ∨
          observedState client project id (historyAfter calls project i) = .ok "waiting") := by
      intro i hi
      by_contra hp
      exact Nat.find_min hex hi ⟨Nat.lt_trans hi hk.1, hp⟩
    obtain ⟨h1, h2, h3⟩ := hA (Nat.find hex) hk.1 hmin
    cases hobs : observedState client project id
        (historyAfter calls project (Nat.find hex)) with
    | error e => exact Or.inr (Or.inl ⟨_, e, hk.1, hobs, h2 e hobs⟩)
    | ok s =>
      by_cases hc : s = "created"
      · subst hc
        exact Or.inl ⟨_, hk.1, hobs, h1 hobs⟩
      · have hs : s ∉ ["created", "creating", "waiting"] := by
          simp only [List.mem_cons, List.mem_singleton, List.not_mem_nil, or_false, not_or]
          refine ⟨hc, ?_, ?_⟩
          · rintro rfl
            exact hk.2 (Or.inl hobs)
          · rintro rfl
            exact hk.2 (Or.inr hobs)
        exact Or.inr (Or.inr (Or.inl ⟨_, s, hk.1, hobs, hs, h3 s hobs hs⟩))

theorem Clock.receives_iff (clock : Clock) (k : Nat) :
    clock.receives k = true ↔
      (k < clock.inTime ∨ ∃ b, clock = .deadlineInFlight b true ∧ k = b) := by
  cases clock with
  | ctxDoneAtStart e => simp [Clock.receives, Clock.inTime]
  | ctxDoneInFlight b e => simp [Clock.receives, Clock.inTime]
  | ctxDoneWaiting b e => simp [Clock.receives, Clock.inTime]
  | deadlineWaiting b => simp [Clock.receives, Clock.inTime]
  | deadlineInFlight b r =>
    cases r
    · simp [Clock.receives, Clock.inTime]
    · simp [Clock.receives, Clock.inTime]

theorem waitEnd_staticIP_received (client : Client) (project id : String) (t b tick : Nat)
    (last : String) (h : List Call) :
    (observedState client project id h = .ok "created" →
      waitEnd (staticIPWaitConf client project id t) (.deadlineInFlight b true) tick last h =
        (none, h ++ [Call.staticIPsList project])) ∧
    (observedState client project id h ≠ .ok "created" →
      ∃ le ls,
        waitEnd (staticIPWaitConf client project id t) (.deadlineInFlight b true) tick last h =
          (some (Err.timeout le ls t ["created"]), h ++ [Call.staticIPsList project])) := by
  constructor
  · intro hc
    simp [waitEnd, staticIPWaitConf, staticIPRefresh_eq, hc, StateChangeConf.verdict]
  · intro hc
    cases hobs : observedState client project id h with
    | error e =>
      exact ⟨some (Err.errorf "unable to fetch static ips: " e), "", by
        simp [waitEnd, staticIPWaitConf, staticIPRefresh_eq, hobs, StateChangeConf.verdict]⟩
    | ok s =>
      have hs : s ≠ "created" := by
        rintro rfl
        exact hc hobs
      by_cases hp : s = "creating" ∨ s = "waiting"
      · exact ⟨none, s, by
          simp [waitEnd, staticIPWaitConf, staticIPRefresh_eq, hobs, StateChangeConf.verdict,
            hs, hp]⟩
      · exact ⟨some (Err.unexpectedState s ["created"]), s, by
          simp [waitEnd, staticIPWaitConf, staticIPRefresh_eq, hobs, StateChangeConf.verdict,
            hs, hp]⟩

theorem waitEnd_staticIP_cases (client : Client) (project id : String) (t tick : Nat)
    (clock : Clock) (last : String) (h : List Call) :
    (clock.isDeadline = false ∧
      ∃ ce j, j ≤ 1 ∧
        waitEnd (staticIPWaitConf client project id t) clock tick last h =
          (some (Err.context ce), historyAfter h project j)) ∨
    (clock.isDeadline = true ∧
      ¬ ((∃ b, clock = .deadlineInFlight b true) ∧
        observedState client project id h = .ok "created") ∧
      ∃ le ls j, j ≤ 1 ∧
        waitEnd (staticIPWaitConf client project id t) clock tick last h =
          (some (Err.timeout le ls t ["created"]), historyAfter h project j)) ∨
    ((∃ b, clock = .deadlineInFlight b true) ∧
      observedState client project id h = .ok "created" ∧
      waitEnd (staticIPWaitConf client project id t) clock tick last h =
        (none, historyAfter h project 1)) := by
  have h0 : historyAfter h project 0 = h := historyAfter_zero h project
  have h1 : historyAfter h project 1 = h ++ [Call.staticIPsList project] := by
    simp [historyAfter]
  cases clock with
  | ctxDoneAtStart e =>
    exact Or.inl ⟨rfl, e, 0, Nat.zero_le _, by rw [h0]; rfl⟩
  | ctxDoneWaiting b e =>
    exact Or.inl ⟨rfl, e, 0, Nat.zero_le _, by rw [h0]; rfl⟩
  | ctxDoneInFlight b e =>
    exact Or.inl ⟨rfl, e, 1, le_refl _, by
      rw [h1]; simp [waitEnd, staticIPWaitConf, staticIPRefresh_eq]⟩
  | deadlineWaiting b =>
    refine Or.inr (Or.inl ⟨rfl, ?_, none, last, 0, Nat.zero_le _, by rw [h0]; rfl⟩)
    rintro ⟨⟨b2, hb⟩, _⟩
    cases hb
  | deadlineInFlight b r =>
    cases r with
    | false =>
      refine Or.inr (Or.inl ⟨rfl, ?_, none, last, 1, le_refl _, by
        rw [h1]; simp [waitEnd, staticIPWaitConf, staticIPRefresh_eq]⟩)
      rintro ⟨⟨b2, hb⟩, _⟩
      cases hb
    | true =>
      obtain ⟨hc, hn⟩ := waitEnd_staticIP_received client project id t b tick last h
      by_cases hobs : observedState client project id h = .ok "created"
      · exact Or.inr (Or.inr ⟨⟨b, rfl⟩, hobs, by rw [h1]; exact hc hobs⟩)
      · obtain ⟨le, ls, hw⟩ := hn hobs
        exact Or.inr (Or.inl ⟨rfl, fun hh => hobs hh.2, le, ls, 1, le_refl _, by
          rw [h1]; exact hw⟩)

theorem historyAfter_add (calls : List Call) (project : String) (i j : Nat) :
    historyAfter (historyAfter calls project i) project j = historyAfter calls project (i + j) := by
  unfold historyAfter
  rw [List.append_assoc, ← List.replicate_add]

theorem resourceStaticIPWait_eq (su : Schemautil) (client : Client) (createTimeout : Nat)
    (clock : Clock) (calls : List Call) (d : ResourceData) :
    resourceStaticIPWait su client createTimeout clock calls d =
      ((waitLoop (staticIPWaitConf client (su.SplitResourceID2 d.Id).1
            (su.SplitResourceID2 d.Id).2 createTimeout) clock clock.inTime 0 "" calls).1.map
          (Err.errorf "error waiting for static ip to be created: "),
        (waitLoop (staticIPWaitConf client (su.SplitResourceID2 d.Id).1
            (su.SplitResourceID2 d.Id).2 createTimeout) clock clock.inTime 0 "" calls).2) := by
  simp only [resourceStaticIPWait, StateChangeConf.WaitForStateContext]
  rcases waitLoop (staticIPWaitConf client (su.SplitResourceID2 d.Id).1
      (su.SplitResourceID2 d.Id).2 createTimeout) clock clock.inTime 0 "" calls with
    ⟨_ | e, c⟩ <;> rfl

/-- C2, as the claim states it, fails: when the remote List call fails, the wait
ends at once, after a single List call and with the deadline still two
refreshes and more away, with the fetch error, which is not a timeout error. -/
theorem static_ip_wait_error_without_timeout :
    resourceStaticIPWait exampleSchemautil (failingClient exampleError) 1200
        (Clock.deadlineWaiting 2) [] ⟨"proj/ip1", fun _ => none⟩ =
      (some (Err.errorf "error waiting for static ip to be created: "
          (Err.errorf "unable to fetch static ips: " exampleError)),
        [Call.staticIPsList "proj"]) ∧
    (Err.errorf "error waiting for static ip to be created: "
        (Err.errorf "unable to fetch static ips: " exampleError)).isTimeout = false :=
  ⟨rfl, rfl⟩

/-- C2, amended: for every sequence of List responses and every timing of the
create deadline and of the context, `resourceStaticIPWait` ends, after List
calls only, at most one more than were answered in time.  It polls while the
static IP whose id is encoded in the resource ID is listed as `creating` or
`waiting` or is missing.  It returns nil exactly on observing state `created`
for that static IP: as soon as a received List response shows it, and only
then.  A failed List call answered in time ends the wait at once with that
error (`unable to fetch static ips`).  Every error it returns is a timeout
error, returned only once the deadline has elapsed, or the error of a failed
List call, or an unexpected-state error for a listed state that is none of
`created`, `creating`, `waiting`, or the error of the context that has ended.
When the deadline elapses with every received response still pending, the
error is a timeout error. -/
theorem static_ip_wait_outcome (su : Schemautil) (client : Client) (createTimeout : Nat)
    (clock : Clock) (calls : List Call) (d : ResourceData) :
    (∃ j, j ≤ clock.inTime + 1 ∧
      (resourceStaticIPWait su client createTimeout clock calls d).2 =
        historyAfter calls (su.SplitResourceID2 d.Id).1 j) ∧
    ((resourceStaticIPWait su client createTimeout clock calls d).1 = none →
      ∃ k, clock.receives k = true ∧
        (resourceStaticIPWait su client createTimeout clock calls d).2 =
          historyAfter calls (su.SplitResourceID2 d.Id).1 (k + 1) ∧
        observedState client (su.SplitResourceID2 d.Id).1 (su.SplitResourceID2 d.Id).2
          (historyAfter calls (su.SplitResourceID2 d.Id).1 k) = .ok "created") ∧
    (∀ h, observedState client (su.SplitResourceID2 d.Id).1 (su.SplitResourceID2 d.Id).2 h =
          .ok "created" ↔
        ∃ ips sip, client.staticIPsList h (su.SplitResourceID2 d.Id).1 = .ok ips ∧
          findStaticIP (su.SplitResourceID2 d.Id).2 ips = some sip ∧ sip.state = "created") ∧
    (∀ k, clock.receives k = true →
      (∀ i, i < k →
        (observedState client (su.SplitResourceID2 d.Id).1 (su.SplitResourceID2 d.Id).2
            (historyAfter calls (su.SplitResourceID2 d.Id).1 i) = .ok "creating" ∨
          observedState client (su.SplitResourceID2 d.Id).1 (su.SplitResourceID2 d.Id).2
            (historyAfter calls (su.SplitResourceID2 d.Id).1 i) = .ok "waiting")) →
      observedState client (su.SplitResourceID2 d.Id).1 (su.SplitResourceID2 d.Id).2
          (historyAfter calls (su.SplitResourceID2 d.Id).1 k) = .ok "created" →
      resourceStaticIPWait su client createTimeout clock calls d =
        (none, historyAfter calls (su.SplitResourceID2 d.Id).1 (k + 1))) ∧
    (∀ k e, k < clock.inTime →
      (∀ i, i < k →
        (observedState client (su.SplitResourceID2 d.Id).1 (su.SplitResourceID2 d.Id).2
            (historyAfter calls (su.SplitResourceID2 d.Id).1 i) = .ok "creating" ∨
          observedState client (su.SplitResourceID2 d.Id).1 (su.SplitResourceID2 d.Id).2
            (historyAfter calls (su.SplitResourceID2 d.Id).1 i) = .ok "waiting")) →
      observedState client (su.SplitResourceID2 d.Id).1 (su.SplitResourceID2 d.Id).2
          (historyAfter calls (su.SplitResourceID2 d.Id).1 k) = .error e →
      resourceStaticIPWait su client createTimeout clock calls d =
        (some (Err.errorf "error waiting for static ip to be created: "
            (Err.errorf "unable to fetch static ips: " e)),
          historyAfter calls (su.SplitResourceID2 d.Id).1 (k + 1))) ∧
    (∀ e, (resourceStaticIPWait su client createTimeout clock calls d).1 = some e →
      (e.isTimeout = true ∧ clock.isDeadline = true ∧
        ∃ lastError lastState,
          e = Err.errorf "error waiting for static ip to be created: "
            (Err.timeout lastError lastState createTimeout ["created"])) ∨
      (∃ k cause,
        e = Err.errorf "error waiting for static ip to be created: "
            (Err.errorf "unable to fetch static ips: " cause) ∧
          (resourceStaticIPWait su client createTimeout clock calls d).2 =
            historyAfter calls (su.SplitResourceID2 d.Id).1 (k + 1) ∧
          observedState client (su.SplitResourceID2 d.Id).1 (su.SplitResourceID2 d.Id).2
            (historyAfter calls (su.SplitResourceID2 d.Id).1 k) = .error cause) ∨
      (∃ k s,
        e = Err.errorf "error waiting for static ip to be created: "
            (Err.unexpectedState s ["created"]) ∧
          (resourceStaticIPWait su client createTimeout clock calls d).2 =
            historyAfter calls (su.SplitResourceID2 d.Id).1 (k + 1) ∧
          observedState client (su.SplitResourceID2 d.Id).1 (su.SplitResourceID2 d.Id).2
            (historyAfter calls (su.SplitResourceID2 d.Id).1 k) = .ok s ∧
          s ∉ ["created", "creating", "waiting"]) ∨
      (clock.isDeadline = false ∧
        ∃ ce, e = Err.errorf "error waiting for static ip to be created: "
          (Err.context ce))) ∧
    ((∀ i, clock.receives i = true →
        (observedState client (su.SplitResourceID2 d.Id).1 (su.SplitResourceID2 d.Id).2
            (historyAfter calls (su.SplitResourceID2 d.Id).1 i) = .ok "creating" ∨
          observedState client (su.SplitResourceID2 d.Id).1 (su.SplitResourceID2 d.Id).2
            (historyAfter calls (su.SplitResourceID2 d.Id).1 i) = .ok "waiting")) →
      clock.isDeadline = true →
      ∃ e, (resourceStaticIPWait su client createTimeout clock calls d).1 = some e ∧
        e.isTimeout = true) := by
  rw [resourceStaticIPWait_eq]
  have hcases := waitLoop_staticIP_cases client (su.SplitResourceID2 d.Id).1
    (su.SplitResourceID2 d.Id).2 createTimeout clock clock.inTime 0 "" calls
  obtain ⟨hA, hB⟩ := waitLoop_staticIP_run client (su.SplitResourceID2 d.Id).1
    (su.SplitResourceID2 d.Id).2 createTimeout clock clock.inTime 0 "" calls
  have hend := fun t1 l1 => waitEnd_staticIP_cases client (su.SplitResourceID2 d.Id).1
    (su.SplitResourceID2 d.Id).2 createTimeout t1 clock l1
    (historyAfter calls (su.SplitResourceID2 d.Id).1 clock.inTime)
  refine ⟨?_, ?_, ?_, ?_, ?_, ?_, ?_⟩
  · rcases hcases with ⟨k, hk, _, hw⟩ | ⟨k, e, hk, _, hw⟩ | ⟨k, s, hk, _, _, hw⟩ |
      ⟨_, t1, l1, hw⟩
    · exact ⟨k + 1, by omega, by rw [hw]⟩
    · exact ⟨k + 1, by omega, by rw [hw]⟩
    · exact ⟨k + 1, by omega, by rw [hw]⟩
    · rcases hend t1 l1 with ⟨_, ce, j, hj, he⟩ | ⟨_, _, le, ls, j, hj, he⟩ | ⟨_, _, he⟩
      · exact ⟨clock.inTime + j, by omega, by rw [hw, he, historyAfter_add]⟩
      · exact ⟨clock.inTime + j, by omega, by rw [hw, he, historyAfter_add]⟩
      · exact ⟨clock.inTime + 1, le_refl _, by rw [hw, he, historyAfter_add]⟩
  · intro hnone
    rcases hcases with ⟨k, hk, hobs, hw⟩ | ⟨k, e, hk, _, hw⟩ | ⟨k, s, hk, _, _, hw⟩ |
      ⟨_, t1, l1, hw⟩
    · exact ⟨k, (Clock.receives_iff clock k).2 (Or.inl hk), by rw [hw], hobs⟩
    · rw [hw] at hnone; simp at hnone
    · rw [hw] at hnone; simp at hnone
    · rcases hend t1 l1 with ⟨_, ce, j, hj, he⟩ | ⟨_, _, le, ls, j, hj, he⟩ |
        ⟨⟨b, hb⟩, hobs, he⟩
      · rw [hw, he] at hnone; simp at hnone
      · rw [hw, he] at hnone; simp at hnone
      · refine ⟨clock.inTime, (Clock.receives_iff clock _).2 (Or.inr ⟨b, hb, ?_⟩), ?_, hobs⟩
        · rw [hb]; rfl
        · rw [hw, he, historyAfter_add]
  · exact fun h => observedState_created_iff client _ _ h
  · intro k hrec hpend hobs
    rcases (Clock.receives_iff clock k).1 hrec with hk | ⟨b, hb, hkb⟩
    · rw [(hA k hk hpend).1 hobs]
      rfl
    · have hin : clock.inTime = k := by rw [hb, hkb]; rfl
      rw [← hin] at hpend hobs
      obtain ⟨t1, l1, hw⟩ := hB hpend
      rcases hend t1 l1 with ⟨hd, _⟩ | ⟨_, hno, _⟩ | ⟨_, _, he⟩
      · rw [hb] at hd; simp [Clock.isDeadline] at hd
      · exact absurd ⟨⟨b, hb⟩, hobs⟩ hno
      · rw [hw, he, historyAfter_add, hin]
        rfl
  · intro k e hk hpend hobs
    rw [(hA k hk hpend).2.1 e hobs]
    rfl
  · intro e he
    rcases hcases with ⟨k, hk, hobs, hw⟩ | ⟨k, e0, hk, hobs, hw⟩ | ⟨k, s, hk, hobs, hs, hw⟩ |
      ⟨_, t1, l1, hw⟩
    · rw [hw] at he; simp at he
    · rw [hw] at he ⊢
      simp only [Option.map_some', Option.some.injEq] at he
      exact Or.inr (Or.inl ⟨k, e0, he.symm, rfl, hobs⟩)
    · rw [hw] at he ⊢
      simp only [Option.map_some', Option.some.injEq] at he
      exact Or.inr (Or.inr (Or.inl ⟨k, s, he.symm, rfl, hobs, hs⟩))
    · rcases hend t1 l1 with ⟨hd, ce, j, hj, hwe⟩ | ⟨hd, _, le, ls, j, hj, hwe⟩ | ⟨_, _, hwe⟩
      · rw [hw, hwe] at he
        simp only [Option.map_some', Option.some.injEq] at he
        exact Or.inr (Or.inr (Or.inr ⟨hd, ce, he.symm⟩))
      · rw [hw, hwe] at he
        simp only [Option.map_some', Option.some.injEq] at he
        exact Or.inl ⟨by rw [← he]; rfl, hd, le, ls, he.symm⟩
      · rw [hw, hwe] at he; simp at he
  · intro hpendAll hdl
    have hpend : ∀ i, i < clock.inTime →
        (observedState client (su.SplitResourceID2 d.Id).1 (su.SplitResourceID2 d.Id).2
            (historyAfter calls (su.SplitResourceID2 d.Id).1 i) = .ok "creating" ∨
          observedState client (su.SplitResourceID2 d.Id).1 (su.SplitResourceID2 d.Id).2
            (historyAfter calls (su.SplitResourceID2 d.Id).1 i) = .ok "waiting") :=
      fun i hi => hpendAll i ((Clock.receives_iff clock i).2 (Or.inl hi))
    obtain ⟨t1, l1, hw⟩ := hB hpend
    rcases hend t1 l1 with ⟨hd, _⟩ | ⟨_, _, le, ls, j, hj, hwe⟩ | ⟨⟨b, hb⟩, hobs, _⟩
    · rw [hd] at hdl; cases hdl
    · exact ⟨Err.errorf "error waiting for static ip to be created: "
        (Err.timeout le ls createTimeout ["created"]), by rw [hw, hwe]; rfl, rfl⟩
    · have hin : clock.inTime = b := by rw [hb]; rfl
      have hp := hpendAll clock.inTime ((Clock.receives_iff clock _).2 (Or.inr ⟨b, hb, hin⟩))
      rw [hobs] at hp
      rcases hp with hp | hp
      · exact absurd (Except.ok.inj hp) (by decide)
      · exact absurd (Except.ok.inj hp) (by decide)

/-- C2 at a concrete input: with the static IP listed as `creating` and then as
`created`, the wait returns nil after two List calls, although the deadline
elapses while the second call is in flight. -/
theorem static_ip_wait_outcome_witness :
    resourceStaticIPWait exampleSchemautil progressingClient 1200
        (Clock.deadlineInFlight 1 true) [] ⟨"proj/ip1", fun _ => none⟩ =
      (none, [Call.staticIPsList "proj", Call.staticIPsList "proj"]) :=
  (static_ip_wait_outcome exampleSchemautil progressingClient 1200
      (Clock.deadlineInFlight 1 true) [] ⟨"proj/ip1", fun _ => none⟩).2.2.2.1 1 rfl
    (fun i hi => by
      have h0 : i = 0 := by omega
      subst h0
      exact Or.inl rfl)
    rfl

theorem staticIP_setEach (d : ResourceData) (project : String) (sip : StaticIP) :
    d.SetEach aivenStaticIPSchema
        [ ("project", .str project),
          ("cloud_name", .str sip.cloudName),
          ("ip_address", .str sip.ipAddress),
          ("service_name", .str sip.serviceName),
          ("state", .str sip.state),
          ("static_ip_address_id", .str sip.staticIPAddressID) ] =
      .ok ⟨d.id, fun k =>
        if k = "static_ip_address_id" then some (.str sip.staticIPAddressID)
        else if k = "state" then some (.str sip.state)
        else if k = "service_name" then some (.str sip.serviceName)
        else if k = "ip_address" then some (.str sip.ipAddress)
        else if k = "cloud_name" then some (.str sip.cloudName)
        else if k = "project" then some (.str project)
        else d.attrs k⟩ := rfl

theorem resourceStaticIPRead_found (su : Schemautil) (client : Client) (calls : List Call)
    (d : ResourceData) (ips : List StaticIP) (sip : StaticIP)
    (h : client.staticIPsList calls (su.SplitResourceID2 d.Id).1 = .ok ips)
    (hf : findStaticIP (su.SplitResourceID2 d.Id).2 ips = some sip) :
    resourceStaticIPRead su client calls d =
      ⟨[], ⟨d.id, fun k =>
        if k = "static_ip_address_id" then some (.str sip.staticIPAddressID)
        else if k = "state" then some (.str sip.state)
        else if k = "service_name" then some (.str sip.serviceName)
        else if k = "ip_address" then some (.str sip.ipAddress)
        else if k = "cloud_name" then some (.str sip.cloudName)
        else if k = "project" then some (.str (su.SplitResourceID2 d.Id).1)
        else d.attrs k⟩,
        calls ++ [Call.staticIPsList (su.SplitResourceID2 d.Id).1]⟩ := by
  simp only [resourceStaticIPRead, h, hf, staticIP_setEach]

theorem resourceStaticIPRead_missing (su : Schemautil) (client : Client) (calls : List Call)
    (d : ResourceData) (ips : List StaticIP)
    (h : client.staticIPsList calls (su.SplitResourceID2 d.Id).1 = .ok ips)
    (hf : findStaticIP (su.SplitResourceID2 d.Id).2 ips = none) :
    resourceStaticIPRead su client calls d =
      ⟨[], ⟨"", d.attrs⟩, calls ++ [Call.staticIPsList (su.SplitResourceID2 d.Id).1]⟩ := by
  simp only [resourceStaticIPRead, h, hf, ResourceData.SetId]

/-- C6: after a successful List call, `resourceStaticIPRead` clears the resource
ID, changes no attribute and returns no diagnostics when no list entry has the
id part of the resource ID; otherwise it returns no diagnostics, keeps the
resource ID, sets `cloud_name`, `ip_address`, `service_name`, `state` and
`static_ip_address_id` to the fields of the first matching entry in list order
and `project` to the project part of the resource ID, and changes no other
attribute. -/
theorem static_ip_read_list_and_match (su : Schemautil) (client : Client)
    (calls : List Call) (d : ResourceData) (ips : List StaticIP)
    (hlist : client.staticIPsList calls (su.SplitResourceID2 d.Id).1 = .ok ips) :
    ((∀ sip ∈ ips, sip.staticIPAddressID ≠ (su.SplitResourceID2 d.Id).2) →
      (resourceStaticIPRead su client calls d).d.id = "" ∧
      (resourceStaticIPRead su client calls d).d.attrs = d.attrs ∧
      (resourceStaticIPRead su client calls d).diags = []) ∧
    (∀ pre sip post, ips = pre ++ sip :: post →
      (∀ x ∈ pre, x.staticIPAddressID ≠ (su.SplitResourceID2 d.Id).2) →
      sip.staticIPAddressID = (su.SplitResourceID2 d.Id).2 →
      (resourceStaticIPRead su client calls d).diags = [] ∧
      (resourceStaticIPRead su client calls d).d.id = d.id ∧
      (resourceStaticIPRead su client calls d).d.attrs "cloud_name" =
        some (.str sip.cloudName) ∧
      (resourceStaticIPRead su client calls d).d.attrs "ip_address" =
        some (.str sip.ipAddress) ∧
      (resourceStaticIPRead su client calls d).d.attrs "service_name" =
        some (.str sip.serviceName) ∧
      (resourceStaticIPRead su client calls d).d.attrs "state" = some (.str sip.state) ∧
      (resourceStaticIPRead su client calls d).d.attrs "static_ip_address_id" =
        some (.str sip.staticIPAddressID) ∧
      (resourceStaticIPRead su client calls d).d.attrs "project" =
        some (.str (su.SplitResourceID2 d.Id).1) ∧
      ∀ k, k ∉ ["project", "cloud_name", "ip_address", "service_name", "state",
          "static_ip_address_id"] →
        (resourceStaticIPRead su client calls d).d.attrs k = d.attrs k) := by
  constructor
  · intro hnone
    rw [resourceStaticIPRead_missing su client calls d ips hlist
      ((findStaticIP_eq_none _ ips).2 hnone)]
    exact ⟨rfl, rfl, rfl⟩
  · intro pre sip post hips hpre hsip
    have hf := findStaticIP_first _ pre post sip hpre hsip
    rw [← hips] at hf
    rw [resourceStaticIPRead_found su client calls d ips sip hlist hf]
    refine ⟨rfl, rfl, ?_, ?_, ?_, ?_, ?_, ?_, ?_⟩
    · simp
    · simp
    · simp
    · simp
    · simp
    · simp
    · intro k hk
      simp only [List.mem_cons, List.mem_singleton, List.not_mem_nil, or_false, not_or] at hk
      obtain ⟨k1, k2, k3, k4, k5, k6⟩ := hk
      simp [k1, k2, k3, k4, k5, k6]

theorem clickhouseUser_setEach (d : ResourceData) (projectName serviceName : String)
    (user : ClickhouseUser) :
    d.SetEach aivenClickhouseUserSchema
        [ ("project", .str projectName),
          ("service_name", .str serviceName),
          ("username", .str user.name),
          ("uuid", .str user.uuid),
          ("required", .bool user.required) ] =
      .ok ⟨d.id, fun k =>
        if k = "required" then some (.bool user.required)
        else if k = "uuid" then some (.str user.uuid)
        else if k = "username" then some (.str user.name)
        else if k = "service_name" then some (.str serviceName)
        else if k = "project" then some (.str projectName)
        else d.attrs k⟩ := rfl

theorem ResourceReadHandleNotFound_attrs (client : Client) (err : Err) (d : ResourceData) :
    (ResourceReadHandleNotFound client err d).2.attrs = d.attrs := by
  unfold ResourceReadHandleNotFound
  cases client.IsNotFound err <;> rfl

theorem resourceClickhouseUserRead_frame (su : Schemautil) (client : Client)
    (calls : List Call) (d : ResourceData) (k : String)
    (hk : k ∉ ["project", "service_name", "username", "uuid", "required"]) :
    (resourceClickhouseUserRead su client calls d).d.attrs k = d.attrs k := by
  simp only [List.mem_cons, List.mem_singleton, List.not_mem_nil, or_false, not_or] at hk
  obtain ⟨k1, k2, k3, k4, k5⟩ := hk
  cases h : client.clickhouseUserGet calls (su.SplitResourceID3 d.Id).1
      (su.SplitResourceID3 d.Id).2.1 (su.SplitResourceID3 d.Id).2.2 with
  | error err =>
    simp only [resourceClickhouseUserRead, h, ResourceReadHandleNotFound_attrs]
  | ok user =>
    simp only [resourceClickhouseUserRead, h, clickhouseUser_setEach]
    simp [k1, k2, k3, k4, k5]

/-- C4: when the remote Create call succeeds, `resourceClickhouseUserCreate`
leaves the `password` attribute equal to the password returned by that call;
`resourceClickhouseUserRead` leaves `password` as it was, for every prior state
and every API response, and more generally changes no attribute other than
`project`, `service_name`, `username`, `uuid` and `required`. -/
theorem clickhouse_password_set_on_create_only (su : Schemautil) (client : Client)
    (calls : List Call) (d : ResourceData) :
    (∀ u, client.clickhouseUserCreate calls (d.GetString "project")
          (d.GetString "service_name") (d.GetString "username") = .ok u →
        (resourceClickhouseUserCreate su client calls d).d.attrs "password" =
          some (.str u.password)) ∧
    (resourceClickhouseUserRead su client calls d).d.attrs "password" = d.attrs "password" ∧
    (∀ k, k ∉ ["project", "service_name", "username", "uuid", "required"] →
        (resourceClickhouseUserRead su client calls d).d.attrs k = d.attrs k) := by
  refine ⟨?_, ?_, ?_⟩
  · intro u hu
    have hset : (d.SetId (su.BuildResourceID
          [d.GetString "project", d.GetString "service_name", u.uuid])).Set
          aivenClickhouseUserSchema "password" (.str u.password) =
        .ok ⟨su.BuildResourceID [d.GetString "project", d.GetString "service_name", u.uuid],
          fun k => if k = "password" then some (.str u.password) else d.attrs k⟩ := rfl
    simp only [resourceClickhouseUserCreate, hu, hset]
    rw [resourceClickhouseUserRead_frame _ _ _ _ "password" (by decide)]
    simp
  · exact resourceClickhouseUserRead_frame su client calls d "password" (by decide)
  · exact fun k hk => resourceClickhouseUserRead_frame su client calls d k hk

theorem stringsSplit_length (sep : Char) (s : List Char) :
    (stringsSplit sep s).length = s.count sep + 1 := by
  induction s with
  | nil => rfl
  | cons c cs ih =>
    by_cases hc : c = sep
    · subst hc
      simp [stringsSplit, ih]
    · have hne : (c == sep) = false := by simpa using hc
      simp only [stringsSplit, if_neg hc, List.count_cons, hne]
      cases hs : stringsSplit sep cs with
      | nil => rw [hs] at ih; simp at ih
      | cons piece rest => rw [hs] at ih; simpa using ih

theorem resourceClickhouseUserRead_calls (su : Schemautil) (client : Client)
    (calls : List Call) (d : ResourceData) :
    (resourceClickhouseUserRead su client calls d).calls =
      calls ++ [Call.clickhouseUserGet (su.SplitResourceID3 d.Id).1
        (su.SplitResourceID3 d.Id).2.1 (su.SplitResourceID3 d.Id).2.2] := by
  cases h : client.clickhouseUserGet calls (su.SplitResourceID3 d.Id).1
      (su.SplitResourceID3 d.Id).2.1 (su.SplitResourceID3 d.Id).2.2 with
  | error err => simp only [resourceClickhouseUserRead, h]
  | ok user => simp only [resourceClickhouseUserRead, h, clickhouseUser_setEach]

theorem kafkaACL_setEach (d : ResourceData) (project serviceName : String) (acl : KafkaACL) :
    d.SetEach aivenKafkaACLSchema
        [ ("project", .str project),
          ("service_name", .str serviceName),
          ("topic", .str acl.topic),
          ("permission", .str acl.permission),
          ("username", .str acl.username) ] =
      .ok ⟨d.id, fun k =>
        if k = "username" then some (.str acl.username)
        else if k = "permission" then some (.str acl.permission)
        else if k = "topic" then some (.str acl.topic)
        else if k = "service_name" then some (.str serviceName)
        else if k = "project" then some (.str project)
        else d.attrs k⟩ := rfl

theorem resourceKafkaACLRead_calls (su : Schemautil) (client : Client)
    (calls : List Call) (d : ResourceData) :
    (resourceKafkaACLRead su client calls d).calls =
      calls ++ [Call.aclCacheRead (su.SplitResourceID3 d.Id).1
        (su.SplitResourceID3 d.Id).2.1 (su.SplitResourceID3 d.Id).2.2] := by
  cases h : client.aclCacheRead calls (su.SplitResourceID3 d.Id).1
      (su.SplitResourceID3 d.Id).2.1 (su.SplitResourceID3 d.Id).2.2 with
  | error err => simp only [resourceKafkaACLRead, h]
  | ok acl =>
    simp only [resourceKafkaACLRead, h, copyKafkaACLPropertiesFromAPIResponseToTerraform,
      kafkaACL_setEach]

/-- C3: splitting the resource ID on `/` gives exactly 3 parts exactly when the
ID has exactly two `/` characters.  When it does not, both import functions
return an invalid-identifier error and no resource data, make no API call and
leave the resource data as it is.  When it does, they perform the read (one
lookup call, the resource data as the read leaves it), return an error exactly
when the read diagnostics contain an error, with no resource data then, and
otherwise return the one-element list holding the resource data. -/
theorem import_requires_three_part_id (su : Schemautil) (client : Client)
    (calls : List Call) (d : ResourceData) :
    ((stringsSplit '/' d.Id.toList).length = 3 ↔ d.Id.toList.count '/' = 2) ∧
    (d.Id.toList.count '/' ≠ 2 →
      resourceClickhouseUserState su client calls d =
          ⟨none, some (Err.msg ("invalid identifier " ++ d.Id ++
            ", expected <project_name>/<service_name>/<uuid>")), d, calls⟩ ∧
        resourceKafkaACLState su client calls d =
          ⟨none, some (Err.msg ("invalid identifier " ++ d.Id ++
            ", expected <project_name>/<service_name>/<acl_id>")), d, calls⟩) ∧
    (d.Id.toList.count '/' = 2 →
      ((resourceClickhouseUserState su client calls d).calls =
            (resourceClickhouseUserRead su client calls d).calls ∧
          (resourceClickhouseUserState su client calls d).calls =
            calls ++ [Call.clickhouseUserGet (su.SplitResourceID3 d.Id).1
              (su.SplitResourceID3 d.Id).2.1 (su.SplitResourceID3 d.Id).2.2] ∧
          (resourceClickhouseUserState su client calls d).d =
            (resourceClickhouseUserRead su client calls d).d ∧
          ((resourceClickhouseUserState su client calls d).err ≠ none ↔
            (resourceClickhouseUserRead su client calls d).diags.hasError = true) ∧
          ((resourceClickhouseUserRead su client calls d).diags.hasError = true →
            (resourceClickhouseUserState su client calls d).data = none) ∧
          ((resourceClickhouseUserRead su client calls d).diags.hasError = false →
            (resourceClickhouseUserState su client calls d).data =
                some [(resourceClickhouseUserRead su client calls d).d] ∧
              (resourceClickhouseUserState su client calls d).err = none)) ∧
        ((resourceKafkaACLState su client calls d).calls =
            (resourceKafkaACLRead su client calls d).calls ∧
          (resourceKafkaACLState su client calls d).calls =
            calls ++ [Call.aclCacheRead (su.SplitResourceID3 d.Id).1
              (su.SplitResourceID3 d.Id).2.1 (su.SplitResourceID3 d.Id).2.2] ∧
          (resourceKafkaACLState su client calls d).d =
            (resourceKafkaACLRead su client calls d).d ∧
          ((resourceKafkaACLState su client calls d).err ≠ none ↔
            (resourceKafkaACLRead su client calls d).diags.hasError = true) ∧
          ((resourceKafkaACLRead su client calls d).diags.hasError = true →
            (resourceKafkaACLState su client calls d).data = none) ∧
          ((resourceKafkaACLRead su client calls d).diags.hasError = false →
            (resourceKafkaACLState su client calls d).data =
                some [(resourceKafkaACLRead su client calls d).d] ∧
              (resourceKafkaACLState su client calls d).err = none))) := by
  have hlen : (stringsSplit '/' d.Id.toList).length = 3 ↔ d.Id.toList.count '/' = 2 := by
    rw [stringsSplit_length]
    omega
  refine ⟨hlen, ?_, ?_⟩
  · intro hne
    have h3 : (stringsSplit '/' d.Id.toList).length ≠ 3 := fun h => hne (hlen.1 h)
    simp only [resourceClickhouseUserState, resourceKafkaACLState, if_pos h3, and_self]
  · intro heq
    have h3 : ¬ (stringsSplit '/' d.Id.toList).length ≠ 3 := fun h => h (hlen.2 heq)
    constructor
    · simp only [resourceClickhouseUserState, if_neg h3]
      cases hd : (resourceClickhouseUserRead su client calls d).diags.hasError <;>
        simp [resourceClickhouseUserRead_calls]
    · simp only [resourceKafkaACLState, if_neg h3]
      cases hd : (resourceKafkaACLRead su client calls d).diags.hasError <;>
        simp [resourceKafkaACLRead_calls]

theorem range_eq_isLower (c : Char) : (decide ('a' ≤ c) && decide (c ≤ 'z')) = c.isLower := by
  rw [Bool.eq_iff_iff]
  simp only [Char.isLower, Char.le_def, Bool.and_eq_true, decide_eq_true_eq, ge_iff_le]
  rfl

theorem range_eq_isUpper (c : Char) : (decide ('A' ≤ c) && decide (c ≤ 'Z')) = c.isUpper := by
  rw [Bool.eq_iff_iff]
  simp only [Char.isUpper, Char.le_def, Bool.and_eq_true, decide_eq_true_eq, ge_iff_le]
  rfl

theorem range_eq_isDigit (c : Char) : (decide ('0' ≤ c) && decide (c ≤ '9')) = c.isDigit := by
  rw [Bool.eq_iff_iff]
  simp only [Char.isDigit, Char.le_def, Bool.and_eq_true, decide_eq_true_eq, ge_iff_le]
  rfl

theorem range_single (a c : Char) : (decide (a ≤ c) && decide (c ≤ a)) = (c == a) := by
  rw [Bool.eq_iff_iff]
  simp only [Bool.and_eq_true, decide_eq_true_eq, beq_iff_eq]
  constructor
  · rintro ⟨h1, h2⟩
    exact le_antisymm h2 h1
  · rintro rfl
    exact ⟨le_refl _, le_refl _⟩

theorem inRanges_usernameFirstClass (c : Char) :
    inRanges usernameFirstClass c = isUsernameFirstChar c := by
  simp only [inRanges, usernameFirstClass, List.any_cons, List.any_nil, Bool.or_false,
    range_eq_isLower, range_eq_isUpper, range_eq_isDigit, range_single, isUsernameFirstChar,
    Char.isAlpha]
  cases c.isLower <;> cases c.isUpper <;> simp [Bool.or_assoc]

theorem inRanges_usernameRestClass (c : Char) :
    inRanges usernameRestClass c = isUsernameRestChar c := by
  simp only [inRanges, usernameRestClass, List.any_cons, List.any_nil, Bool.or_false,
    range_eq_isLower, range_eq_isUpper, range_eq_isDigit, range_single, isUsernameRestChar,
    isUsernameFirstChar, Char.isAlpha]
  cases c.isLower <;> cases c.isUpper <;> simp [Bool.or_assoc]

theorem iterate_step_nil_mem (p : Char → Bool) (step : List Char → List (List Char))
    (hnil : step [] = [])
    (hcons : ∀ c t, step (c :: t) = if p c = true then [t] else []) :
    ∀ (fuel : Nat) (t : List Char), t.length < fuel →
      ([] ∈ Regexp.iterate step fuel t ↔ t ≠ [] ∧ ∀ c ∈ t, p c = true) := by
  intro fuel
  induction fuel with
  | zero => intro t ht; simp at ht
  | succ fuel ih =>
    intro t ht
    cases t with
    | nil => simp [Regexp.iterate, hnil]
    | cons c t =>
      have ht2 : t.length < fuel := by simpa using ht
      by_cases hc : p c = true
      · simp only [Regexp.iterate, hcons, if_pos hc, List.flatMap_cons, List.flatMap_nil,
          List.append_nil, List.length_cons, Nat.lt_succ_self, if_true, List.mem_cons,
          ih t ht2]
        constructor
        · rintro (h | ⟨_, h⟩)
          · subst h
            simp [hc]
          · refine ⟨List.cons_ne_nil _ _, ?_⟩
            intro x hx
            rcases hx with hx | hx
            · rw [hx]; exact hc
            · exact h x hx
        · rintro ⟨_, h⟩
          by_cases htn : t = []
          · exact Or.inl htn.symm
          · exact Or.inr ⟨htn, fun x hx => h x (Or.inr hx)⟩
      · simp only [Regexp.iterate, hcons, if_neg hc, List.flatMap_nil, List.not_mem_nil,
          false_iff, not_and]
        intro _ h
        exact hc (h c (List.mem_cons_self _ _))

theorem run_plus_cls_nil_mem (ranges : List (Char × Char)) (n : Nat) (t : List Char) :
    [] ∈ Regexp.run (.plus (.cls ranges)) n t ↔
      t ≠ [] ∧ ∀ c ∈ t, inRanges ranges c = true := by
  simp only [Regexp.run]
  exact iterate_step_nil_mem (inRanges ranges) _ rfl (fun _ _ => rfl) (t.length + 1) t
    (Nat.lt_succ_self _)

theorem ne_nil_iff_exists_mem {α : Type} (l : List α) : l ≠ [] ↔ ∃ x, x ∈ l := by
  constructor
  · exact List.exists_mem_of_ne_nil l
  · rintro ⟨x, hx⟩ hl
    rw [hl] at hx
    exact List.not_mem_nil x hx

theorem mem_run_cat (a b : Regexp) (n : Nat) (s x : List Char) :
    x ∈ Regexp.run (.cat a b) n s ↔ ∃ r, r ∈ Regexp.run a n s ∧ x ∈ Regexp.run b n r := by
  simp [Regexp.run, List.mem_flatMap]

theorem mem_run_alt (a b : Regexp) (n : Nat) (s x : List Char) :
    x ∈ Regexp.run (.alt a b) n s ↔ x ∈ Regexp.run a n s ∨ x ∈ Regexp.run b n s := by
  simp [Regexp.run]

theorem mem_run_beginText (n : Nat) (s x : List Char) :
    x ∈ Regexp.run .beginText n s ↔ s.length = n ∧ x = s := by
  by_cases h : s.length = n <;> simp [Regexp.run, h]

theorem mem_run_endText (n : Nat) (s x : List Char) :
    x ∈ Regexp.run .endText n s ↔ s = [] ∧ x = [] := by
  by_cases h : s = []
  · subst h
    simp [Regexp.run]
  · simp [Regexp.run, h]

theorem mem_run_lit (c : Char) (n : Nat) (s x : List Char) :
    x ∈ Regexp.run (.lit c) n s ↔ s = c :: x := by
  cases s with
  | nil => simp [Regexp.run]
  | cons y t =>
    by_cases h : y = c
    · simp [Regexp.run, h, eq_comm]
    · simp [Regexp.run, h]

theorem mem_run_cls (ranges : List (Char × Char)) (n : Nat) (s x : List Char) :
    x ∈ Regexp.run (.cls ranges) n s ↔ ∃ c, s = c :: x ∧ inRanges ranges c = true := by
  cases s with
  | nil => simp [Regexp.run]
  | cons y t =>
    by_cases h : inRanges ranges y = true
    · simp only [Regexp.run, if_pos h, List.mem_singleton, List.cons.injEq]
      constructor
      · rintro rfl
        exact ⟨y, ⟨rfl, rfl⟩, h⟩
      · rintro ⟨c, ⟨_, h2⟩, _⟩
        exact h2.symm
    · simp only [Regexp.run, if_neg h, List.not_mem_nil, List.cons.injEq, false_iff, not_exists,
        not_and]
      rintro c ⟨rfl, _⟩
      exact h

theorem usernameRegexp_run (n : Nat) (s : List Char) :
    Regexp.run usernameRegexp n s ≠ [] ↔
      s.length = n ∧
        (s = ['*'] ∨
          ∃ c t, s = c :: t ∧ isUsernameFirstChar c = true ∧ t ≠ [] ∧
            ∀ x ∈ t, isUsernameRestChar x = true) := by
  rw [ne_nil_iff_exists_mem]
  simp only [usernameRegexp, mem_run_cat, mem_run_alt, mem_run_beginText, mem_run_endText,
    mem_run_lit, mem_run_cls]
  constructor
  · rintro ⟨x, r, ⟨hlen, rfl⟩, r2, hbody, rfl, rfl⟩
    refine ⟨hlen, ?_⟩
    rcases hbody with ⟨r3, hr, h3, _⟩ | ⟨r3, ⟨c, hr, hc⟩, hplus⟩
    · left
      rw [hr, h3]
    · right
      rw [run_plus_cls_nil_mem] at hplus
      refine ⟨c, r3, hr, ?_, hplus.1, ?_⟩
      · rw [← inRanges_usernameFirstClass]; exact hc
      · intro y hy
        rw [← inRanges_usernameRestClass]
        exact hplus.2 y hy
  · rintro ⟨hlen, hs | ⟨c, t, hs, hc, ht, hall⟩⟩
    · exact ⟨[], s, ⟨hlen, rfl⟩, [], Or.inl ⟨[], hs, rfl, rfl⟩, rfl, rfl⟩
    · refine ⟨[], s, ⟨hlen, rfl⟩, [], Or.inr ⟨t, ⟨c, hs, ?_⟩, ?_⟩, rfl, rfl⟩
      · rw [inRanges_usernameFirstClass]; exact hc
      · rw [run_plus_cls_nil_mem]
        refine ⟨ht, ?_⟩
        intro y hy
        rw [inRanges_usernameRestClass]
        exact hall y hy

theorem usernameRegexp_matchString (s : List Char) :
    Regexp.MatchString usernameRegexp s = true ↔
      (s = ['*'] ∨
        ∃ c t, s = c :: t ∧ isUsernameFirstChar c = true ∧ t ≠ [] ∧
          ∀ x ∈ t, isUsernameRestChar x = true) := by
  simp only [Regexp.MatchString, List.any_eq_true, List.mem_tails, Bool.not_eq_true',
    List.isEmpty_eq_false, usernameRegexp_run]
  constructor
  · rintro ⟨t, hsuf, hlen, h⟩
    have : t = s := List.IsSuffix.eq_of_length hsuf hlen
    rw [← this]
    exact h
  · intro h
    exact ⟨s, List.suffix_refl s, rfl, h⟩

theorem usernameValidateFunc_accepts_iff (s k : String) :
    (usernameValidateFunc (.str s) k).2 = [] ↔
      Regexp.MatchString usernameRegexp s.toList = true := by
  have hmsg : ("username should be alphanumeric" : String) ≠ "" := by decide
  show _ ↔ Regexp.MatchString usernameRegexp s.data = true
  cases h : Regexp.MatchString usernameRegexp s.data <;>
    simp [usernameValidateFunc, StringMatch, h, hmsg]

theorem usernameValidate_spec (s k : String) :
    (usernameValidateFunc (.str s) k).2 = [] ↔
      (s = "*" ∨
        (2 ≤ s.length ∧
          ∃ c t, s.toList = c :: t ∧ isUsernameFirstChar c = true ∧
            ∀ x ∈ t, isUsernameRestChar x = true)) := by
  rw [usernameValidateFunc_accepts_iff, usernameRegexp_matchString]
  have hstar : s = "*" ↔ s.toList = ['*'] := by
    constructor
    · rintro rfl; rfl
    · intro h; exact String.ext h
  have hlen : s.length = s.toList.length := rfl
  rw [hstar, hlen]
  constructor
  · rintro (h | ⟨c, t, hs, hc, ht, hall⟩)
    · exact Or.inl h
    · refine Or.inr ⟨?_, c, t, hs, hc, hall⟩
      rw [hs]
      cases t with
      | nil => exact absurd rfl ht
      | cons y t => simp
  · rintro (h | ⟨h2, c, t, hs, hc, hall⟩)
    · exact Or.inl h
    · refine Or.inr ⟨c, t, hs, hc, ?_, hall⟩
      rintro rfl
      rw [hs] at h2
      simp at h2

/-- C10: the validator of the Kafka ACL `username` attribute accepts a string
exactly when it is `*`, or has at least two characters, the first an ASCII
letter, a digit, `-`, `_` or `?` and every later one of those or `*`.  So every
one-character username other than `*` (such as `a`) is rejected, the empty
string is rejected, and a string of two or more characters that starts with `*`
is rejected. -/
theorem username_validator_accepts_exactly (s k : String) :
    (∃ sch, aivenKafkaACLSchema.lookup "username" = some sch ∧
        sch.validateFunc = some usernameValidateFunc) ∧
    ((usernameValidateFunc (.str s) k).2 = [] ↔
      (s = "*" ∨
        (2 ≤ s.length ∧
          ∃ c t, s.toList = c :: t ∧ isUsernameFirstChar c = true ∧
            ∀ x ∈ t, isUsernameRestChar x = true))) ∧
    (usernameValidateFunc (.str "*") k).2 = [] ∧
    (∀ c : Char, c ≠ '*' → (usernameValidateFunc (.str (String.singleton c)) k).2 ≠ []) ∧
    (usernameValidateFunc (.str "a") k).2 ≠ [] ∧
    (usernameValidateFunc (.str "") k).2 ≠ [] ∧
    (∀ t : List Char, t ≠ [] → (usernameValidateFunc (.str (String.mk ('*' :: t))) k).2 ≠ []) := by
  refine ⟨⟨_, rfl, rfl⟩, usernameValidate_spec s k, ?_, ?_, ?_, ?_, ?_⟩
  · rw [usernameValidate_spec]
    exact Or.inl rfl
  · intro c hc
    rw [Ne, usernameValidate_spec]
    rintro (h | ⟨h2, _⟩)
    · have := congrArg String.toList h
      simp only [String.singleton, String.toList] at this
      have h3 : [c] = ['*'] := this
      simp only [List.cons.injEq, and_true] at h3
      exact hc h3
    · have : (String.singleton c).length = 1 := rfl
      omega
  · rw [Ne, usernameValidate_spec]
    rintro (h | ⟨h2, _⟩)
    · exact absurd h (by decide)
    · exact absurd h2 (by decide)
  · rw [Ne, usernameValidate_spec]
    rintro (h | ⟨h2, _⟩)
    · exact absurd h (by decide)
    · exact absurd h2 (by decide)
  · intro t ht
    rw [Ne, usernameValidate_spec]
    rintro (h | ⟨_, c, t2, hs, hc, _⟩)
    · have := congrArg String.toList h
      have h3 : '*' :: t = ['*'] := this
      simp only [List.cons.injEq, true_and] at h3
      exact ht h3
    · have h3 : '*' :: t = c :: t2 := hs
      simp only [List.cons.injEq] at h3
      rw [← h3.1] at hc
      exact absurd hc (by decide)

/-! ## Instances at concrete inputs -/

/-- C1 at a concrete input: deleting a static
IP that the remote service reports as not found gives no diagnostics, and a
forbidden delete of a Kafka ACL gives that error as its diagnostic. -/
theorem delete_succeeds_iff_no_error_or_not_found_witness :
    (resourceStaticIPDelete exampleSchemautil (failingClient (Err.api 404 "not found")) []
        ⟨"proj/ip1", fun _ => none⟩).diags = [] ∧
    (resourceKafkaACLDelete exampleSchemautil (failingClient (Err.api 403 "forbidden")) []
        ⟨"proj/svc/acl1", fun _ => none⟩).diags =
      Diagnostics.fromErr (some (Err.api 403 "forbidden")) :=
  ⟨(delete_succeeds_iff_no_error_or_not_found exampleSchemautil
      (failingClient (Err.api 404 "not found")) [] ⟨"proj/ip1", fun _ => none⟩).1.1.2
      (Or.inr ⟨Err.api 404 "not found", rfl, rfl⟩),
    (delete_succeeds_iff_no_error_or_not_found exampleSchemautil
      (failingClient (Err.api 403 "forbidden")) [] ⟨"proj/svc/acl1", fun _ => none⟩).2.2.2
      (Err.api 403 "forbidden") ⟨rfl, rfl⟩⟩

/-- C3 at a concrete input: the two-part ID `proj/svc` is
refused without any call, and the three-part ID `proj/svc/u1` leads to one
lookup of user `u1`. -/
theorem import_requires_three_part_id_witness :
    (resourceClickhouseUserState exampleSchemautil userClient []
        ⟨"proj/svc", fun _ => none⟩ =
      ⟨none, some (Err.msg
        "invalid identifier proj/svc, expected <project_name>/<service_name>/<uuid>"),
        ⟨"proj/svc", fun _ => none⟩, []⟩ ∧
      resourceKafkaACLState exampleSchemautil userClient []
        ⟨"proj/svc", fun _ => none⟩ =
      ⟨none, some (Err.msg
        "invalid identifier proj/svc, expected <project_name>/<service_name>/<acl_id>"),
        ⟨"proj/svc", fun _ => none⟩, []⟩) ∧
    (resourceClickhouseUserState exampleSchemautil userClient []
        ⟨"proj/svc/u1", fun _ => none⟩).calls = [Call.clickhouseUserGet "proj" "svc" "u1"] ∧
    (resourceClickhouseUserState exampleSchemautil userClient []
        ⟨"proj/svc/u1", fun _ => none⟩).err = none :=
  ⟨(import_requires_three_part_id exampleSchemautil userClient []
      ⟨"proj/svc", fun _ => none⟩).2.1 (by decide),
    ((import_requires_three_part_id exampleSchemautil userClient []
      ⟨"proj/svc/u1", fun _ => none⟩).2.2 (by decide)).1.2.1,
    (((import_requires_three_part_id exampleSchemautil userClient []
      ⟨"proj/svc/u1", fun _ => none⟩).2.2 (by decide)).1.2.2.2.2.2 rfl).2⟩

/-- C4 at a concrete input: creating user
`alice` stores the password the remote Create call returned, although the
following read answers with an empty password. -/
theorem clickhouse_password_set_on_create_only_witness :
    (resourceClickhouseUserCreate exampleSchemautil userClient []
        ⟨"", fun k =>
          if k = "project" then some (.str "proj")
          else if k = "service_name" then some (.str "svc")
          else if k = "username" then some (.str "alice") else none⟩).d.attrs "password" =
      some (.str "s3cret") :=
  (clickhouse_password_set_on_create_only exampleSchemautil userClient []
    ⟨"", fun k =>
      if k = "project" then some (.str "proj")
      else if k = "service_name" then some (.str "svc")
      else if k = "username" then some (.str "alice") else none⟩).1 exampleUser rfl

/-- C6 at a concrete input: reading `proj/ip1` against a
list that has `ip1` sets `state` to the listed state, and against an empty list
clears the resource ID. -/
theorem static_ip_read_list_and_match_witness :
    (resourceStaticIPRead exampleSchemautil (listingClient [exampleStaticIP]) []
        ⟨"proj/ip1", fun _ => none⟩).d.attrs "state" = some (.str "created") ∧
    (resourceStaticIPRead exampleSchemautil (listingClient []) []
        ⟨"proj/ip1", fun _ => none⟩).d.id = "" :=
  ⟨((static_ip_read_list_and_match exampleSchemautil (listingClient [exampleStaticIP]) []
      ⟨"proj/ip1", fun _ => none⟩ [exampleStaticIP] rfl).2 [] exampleStaticIP [] rfl
      (fun _ h => absurd h (List.not_mem_nil _)) rfl).2.2.2.2.2.1,
    ((static_ip_read_list_and_match exampleSchemautil (listingClient []) []
      ⟨"proj/ip1", fun _ => none⟩ [] rfl).1 (fun _ h => absurd h (List.not_mem_nil _))).1⟩

/-- C9 at a concrete input: against an empty list the
refresh step reports the pending state `waiting`, and a failed List call makes
it return the fetch error. -/
theorem refresh_is_list_and_match_witness :
    (staticIPRefresh (listingClient []) "proj" "ip1" []).1.state = "waiting" ∧
    (staticIPRefresh (failingClient exampleError) "proj" "ip1" []).1.err =
      some (Err.errorf "unable to fetch static ips: " exampleError) :=
  ⟨((refresh_is_list_and_match (listingClient []) "proj" "ip1" [] 3).2.2.2.2.1 [] rfl).2.2.1
      (fun _ h => absurd h (List.not_mem_nil _)),
    ((refresh_is_list_and_match (failingClient exampleError) "proj" "ip1" [] 3).2.2.2.1
      exampleError rfl).1⟩

/-- C10 at a concrete input: the one-character
username `a` is rejected, and so is `*a`. -/
theorem username_validator_accepts_exactly_witness :
    (usernameValidateFunc (.str (String.singleton 'a')) "username").2 ≠ [] ∧
    (usernameValidateFunc (.str (String.mk ['*', 'a'])) "username").2 ≠ [] :=
  ⟨(username_validator_accepts_exactly "" "username").2.2.2.1 'a' (by decide),
    (username_validator_accepts_exactly "" "username").2.2.2.2.2.2 ['a'] (by decide)⟩

end Aiven
